import Mathlib

/-!
Verification of the marker/shape data model of an interactive map
annotation tool (React + Leaflet).  The JavaScript source is shallowly
embedded: JS numbers appear as `ℚ` (every IEEE double is a rational with
power-of-two denominator; real-valued trigonometry appears as `ℝ`),
JS strings as `String`/`List Char`, and the mutable component state as
explicit values threaded through functions.  Function names follow the
source (`isDuplicate`, `handleAddMarker`, `markersToCSVString`,
`parseCSV`, `handleTextChange`, `handleDeleteMap`); the body of the CSV
file-import callback `onFileSelected` is embedded as `importCSV`.
-/

/-- The fixed category enumeration (keys of `CATEGORIES` in the source;
display colors are irrelevant to the data layer and omitted). -/
def CATEGORIES : List String := ["General", "Restaurant", "College", "Event", "Shop"]

/-- A marker record.  `id` is the `Date.now()`-derived identifier (a
millisecond timestamp, possibly plus a row index), `position` is
`[lat, lng]`.  An unset JS `category` (`undefined`) is modelled as `""`,
which the source code treats identically (`m.category || "General"`,
`m.category === c.key`, `m.category || ""`). -/
structure Marker where
  id : Nat
  position : ℚ × ℚ
  title : String
  description : String
  category : String
  image : Option String
deriving DecidableEq, Repr

/- ---------------- CSV text utilities ---------------- -/

/-- JS whitespace for `String.prototype.trim` (ASCII subset). -/
def isWS (c : Char) : Bool :=
  c == ' ' || c == '\t' || c == '\n' || c == '\r' || c == '\x0b' || c == '\x0c'

/-- Model of JS `s.trim()` on a char list. -/
def trimCL (l : List Char) : List Char :=
  ((l.dropWhile isWS).reverse.dropWhile isWS).reverse

/-- Helper for `splitLines`: the accumulator holds the current line
reversed; on `\n` we drop a single `\r` that immediately preceded it. -/
def stripCRrev (acc : List Char) : List Char :=
  match acc with
  | c :: a => if c = '\r' then a.reverse else acc.reverse
  | [] => []

def slAux : List Char → List Char → List (List Char)
  | [], acc => [acc.reverse]
  | c :: rest, acc =>
    if c = '\n' then stripCRrev acc :: slAux rest [] else slAux rest (c :: acc)

/-- Model of `text.split(/\r?\n/)`. -/
def splitLines (cs : List Char) : List (List Char) := slAux cs []

/-- The per-row field scanner of `parseCSV`: walks the line with a
`inQuotes` flag, doubling rule `"" ↦ "`, a lone `"` toggles the flag,
and `,` outside quotes ends the field. -/
def goRowGo : Nat → List Char → Bool → List Char → List (List Char)
  | 0, _, _, cur => [cur.reverse]
  | _ + 1, [], _, cur => [cur.reverse]
  | f + 1, c :: rest, q, cur =>
    if c = '"' then
      match rest with
      | c2 :: rest2 =>
        if c2 = '"' then goRowGo f rest2 q ('"' :: cur) else goRowGo f rest (!q) cur
      | [] => [cur.reverse]
    else if c = ',' ∧ q = false then cur.reverse :: goRowGo f rest false []
    else goRowGo f rest q (c :: cur)

def goRow (l : List Char) (q : Bool) (cur : List Char) : List (List Char) :=
  goRowGo (l.length + 1) l q cur

/-- Plain split on commas (used for the header line, which the source
splits with `split(",")`, with no quote awareness). -/
def splitCommas : List Char → List Char → List (List Char)
  | [], acc => [acc.reverse]
  | c :: rest, acc =>
    if c = ',' then acc.reverse :: splitCommas rest [] else splitCommas rest (c :: acc)

/-- Drop one leading `"` if present. -/
def dropLeadQuote (l : List Char) : List Char :=
  match l with
  | c :: r => if c = '"' then r else l
  | [] => []

/-- Model of `h.replace(/^"|"$/g, "")`: one leading and one trailing
quote removed. -/
def stripQuotes (l : List Char) : List Char :=
  (dropLeadQuote (dropLeadQuote l).reverse).reverse

def lowerCL (l : List Char) : List Char := l.map Char.toLower

/- ---------------- JS number formatting / parsing ---------------- -/

/-- Decimal digits, fuel-based so that the kernel can evaluate it (the
fuel `n + 1` always suffices since `n / 10 < n`). -/
def natDigitsGo (fuel n : Nat) : List Char :=
  match fuel with
  | 0 => []
  | f + 1 =>
    if n < 10 then [Nat.digitChar n]
    else natDigitsGo f (n / 10) ++ [Nat.digitChar (n % 10)]

/-- Decimal digits of a natural number, most significant first. -/
def natDigits (n : Nat) : List Char := natDigitsGo (n + 1) n

def digitsToNatCore (l : List Char) : Nat :=
  l.foldl (fun a c => a * 10 + (c.toNat - 48)) 0

/-- Natural number from a nonempty all-digit char list. -/
def digitsToNat? (l : List Char) : Option Nat :=
  if l ≠ [] ∧ l.all Char.isDigit then some (digitsToNatCore l) else none

/-- Natural number from a possibly-empty all-digit char list (empty ↦ 0). -/
def digitsOrZero? (l : List Char) : Option Nat :=
  if l.all Char.isDigit then some (digitsToNatCore l) else none

/-- Smallest `k ≤ 1200` with `d ∣ 10^k` (every IEEE-double denominator is
`2^e` with `e ≤ 1074`, so this is total on the numbers the app handles). -/
def decExp (d : Nat) : Option Nat :=
  (List.range 1201).find? (fun k => 10 ^ k % d = 0)

/-- Model of JS number-to-string conversion for values with a terminating
decimal expansion: exact decimal, no trailing zeros, matching
`String(x)` for every such value in the app's coordinate range. -/
def ratToString (q : ℚ) : String :=
  match decExp q.den with
  | none => "0"
  | some k =>
    let n := q.num.natAbs * 10 ^ k / q.den
    let intPart := n / 10 ^ k
    let frac := n % 10 ^ k
    let ds := natDigits frac
    let fracDigits := List.replicate (k - ds.length) '0' ++ ds
    String.mk ((if q.num < 0 then ['-'] else []) ++
      natDigits intPart ++ (if k = 0 then [] else '.' :: fracDigits))

def hexDigitVal? (c : Char) : Option Nat :=
  if c.isDigit then some (c.toNat - 48)
  else if 'a' ≤ c ∧ c ≤ 'f' then some (c.toNat - 87)
  else if 'A' ≤ c ∧ c ≤ 'F' then some (c.toNat - 55)
  else none

def octDigitVal? (c : Char) : Option Nat :=
  if '0' ≤ c ∧ c ≤ '7' then some (c.toNat - 48) else none

def binDigitVal? (c : Char) : Option Nat :=
  if c = '0' ∨ c = '1' then some (c.toNat - 48) else none

/-- Digits of an arbitrary base, `none` on an empty or invalid list. -/
def baseToNat? (base : Nat) (val? : Char → Option Nat) (l : List Char) : Option Nat :=
  if l = [] then none
  else l.foldl (fun acc c => acc.bind (fun a => (val? c).map (fun d => a * base + d))) (some 0)

/-- First split at a separator character: returns the part before the
first separator and, if one occurred, the part after it. -/
def splitFirst (p : Char → Bool) : List Char → List Char × Option (List Char)
  | [] => ([], none)
  | c :: r =>
    if p c then ([], some r)
    else
      let s := splitFirst p r
      (c :: s.1, s.2)

/-- Decimal `StrNumericLiteral` part of JS `Number(string)`:
`digits [. digits] [e sign digits]`, `.digits`, `digits.`.  Returns
`none` for NaN. -/
def jsDecimal (l : List Char) (sgn : ℚ) : Option ℚ :=
  let me := splitFirst (fun c => c == 'e' || c == 'E') l
  let e? : Option Int :=
    match me.2 with
    | none => some 0
    | some ep =>
      match ep with
      | c :: d =>
        if c = '+' then (digitsToNat? d).map Int.ofNat
        else if c = '-' then (digitsToNat? d).map (fun n => -(n : Int))
        else (digitsToNat? (c :: d)).map Int.ofNat
      | [] => (digitsToNat? []).map Int.ofNat
  match e? with
  | none => none
  | some e =>
    let s := splitFirst (fun c => c == '.') me.1
    match s.2 with
    | none => (digitsToNat? s.1).map (fun n => sgn * (n : ℚ) * (10 : ℚ) ^ e)
    | some fp =>
      if '.' ∈ fp then none
      else if s.1 = [] ∧ fp = [] then none
      else
        match digitsOrZero? s.1, digitsOrZero? fp with
        | some a, some b =>
          some (sgn * ((a : ℚ) + (b : ℚ) / 10 ^ fp.length) * (10 : ℚ) ^ e)
        | _, _ => none

/-- Unsigned part of `Number(string)`: `Infinity` and the `0x`/`0o`/`0b`
radix forms (which JS only accepts unsigned), else a decimal literal.
`none` stands for a non-finite result (NaN or ±Infinity): the importing
code treats both identically via `isFinite`. -/
def jsUnsigned (l : List Char) (sgn : ℚ) (hadSign : Bool) : Option ℚ :=
  if l = "Infinity".data then none
  else
    match l with
    | c0 :: c :: rest =>
      if c0 = '0' ∧ (c = 'x' ∨ c = 'X') ∧ hadSign = false then
        (baseToNat? 16 hexDigitVal? rest).map (fun n => (n : ℚ))
      else if c0 = '0' ∧ (c = 'o' ∨ c = 'O') ∧ hadSign = false then
        (baseToNat? 8 octDigitVal? rest).map (fun n => (n : ℚ))
      else if c0 = '0' ∧ (c = 'b' ∨ c = 'B') ∧ hadSign = false then
        (baseToNat? 2 binDigitVal? rest).map (fun n => (n : ℚ))
      else jsDecimal l sgn
    | _ => jsDecimal l sgn

/-- Model of JS `Number(string)` on an already-trimmed string (the import
code applies it to `parseCSV`-trimmed fields only).  `some q` is a finite
value, `none` is NaN/±Infinity. -/
def jsNumC (l : List Char) : Option ℚ :=
  match l with
  | [] => some 0
  | c :: r =>
    if c = '+' then jsUnsigned r 1 true
    else if c = '-' then jsUnsigned r (-1) true
    else jsUnsigned (c :: r) 1 false

/- ---------------- CSV export (markersToCSVString) ---------------- -/

/-- `replace(/"/g, '""')`. -/
def escQuotes : List Char → List Char
  | [] => []
  | c :: r => if c = '"' then '"' :: '"' :: escQuotes r else c :: escQuotes r

/-- Wrap a field in double quotes, doubling embedded quotes. -/
def quoteField (s : List Char) : List Char := '"' :: (escQuotes s ++ ['"'])

/-- One CSV data row: quoted title, quoted description, raw latitude,
raw longitude, raw category (`m.category || ""`). -/
def rowChars (m : Marker) : List Char :=
  quoteField m.title.data ++ ',' ::
    (quoteField m.description.data ++ ',' ::
      ((ratToString m.position.1).data ++ ',' ::
        ((ratToString m.position.2).data ++ ',' :: m.category.data)))

def joinNL : List (List Char) → List Char
  | [] => []
  | [l] => l
  | l :: ls => l ++ '\n' :: joinNL ls

def csvHeader : List Char := "Title,Description,Latitude,Longitude,Category".data

/-- The source's `markersToCSVString`. -/
def markersToCSVString (ms : List Marker) : String :=
  String.mk (joinNL (csvHeader :: ms.map rowChars))

/- ---------------- CSV parsing (parseCSV) ---------------- -/

/-- The source's `parseCSV`: split into nonblank lines, header line split
plainly at commas (trim, strip one surrounding quote pair), every other
line scanned by `goRow` and each field trimmed. -/
def parseCSV (cs : List Char) : List (List Char) × List (List (List Char)) :=
  let lines := (splitLines cs).filter (fun l => !(trimCL l).isEmpty)
  match lines with
  | [] => ([], [])
  | h :: rest =>
    ((splitCommas h []).map (fun f => stripQuotes (trimCL f)),
     rest.map (fun ln => (goRow ln false []).map trimCL))

/-- Header column indices found by `onFileSelected` (the lat/lng columns
are mandatory, hence plain `Nat` here; the others may be absent). -/
structure ColIdx where
  title : Option Nat
  desc : Option Nat
  lat : Nat
  lng : Nat
  cat : Option Nat
deriving DecidableEq, Repr

/-- Row validation part of the import loop: missing coordinates, then
`Number` conversion with finiteness/range check, then field defaulting
(`title || "Imported Marker"`, `desc || ""`, unrecognized category ↦
`"General"`).  Returns the validated`(title, description, lat, lng,
category)` or the row error message. -/
def validateRow (idx : ColIdx) (i : Nat) (r : List (List Char)) :
    Except String (String × String × ℚ × ℚ × String) :=
  let title := match idx.title with | none => [] | some j => r.getD j []
  let desc := match idx.desc with | none => [] | some j => r.getD j []
  let latRaw := r.getD idx.lat []
  let lngRaw := r.getD idx.lng []
  let catRaw :=
    match idx.cat with
    | none => "General".data
    | some j => if r.getD j [] = [] then "General".data else r.getD j []
  if latRaw = [] ∨ lngRaw = [] then
    .error ("Row " ++ toString (i + 2) ++ ": missing coordinates")
  else
    match jsNumC latRaw, jsNumC lngRaw with
    | some lat, some lng =>
      if lat < -90 ∨ lat > 90 ∨ lng < -180 ∨ lng > 180 then
        .error ("Row " ++ toString (i + 2) ++ ": invalid lat/lng (" ++
          String.mk latRaw ++ ", " ++ String.mk lngRaw ++ ")")
      else
        .ok (if title = [] then "Imported Marker" else String.mk title,
             String.mk desc, lat, lng,
             if String.mk catRaw ∈ CATEGORIES then String.mk catRaw else "General")
    | _, _ =>
      .error ("Row " ++ toString (i + 2) ++ ": invalid lat/lng (" ++
        String.mk latRaw ++ ", " ++ String.mk lngRaw ++ ")")

/- ---------------- Duplicate detection (haversine) ---------------- -/

/-- Degrees to radians, `toRad` in the source. -/
noncomputable def toRad (d : ℝ) : ℝ := d * Real.pi / 180

/-- JS `Math.atan2` over the reals. -/
noncomputable def atan2 (y x : ℝ) : ℝ :=
  if 0 < x then Real.arctan (y / x)
  else if x < 0 then
    (if 0 ≤ y then Real.arctan (y / x) + Real.pi else Real.arctan (y / x) - Real.pi)
  else if 0 < y then Real.pi / 2
  else if y < 0 then -(Real.pi / 2)
  else 0

/-- The haversine great-circle distance exactly as computed inside
`isDuplicate`: candidate `(lat, lng)` against stored `(lat2, lon2)`,
Earth radius 6 371 000 m. -/
noncomputable def haversineDist (lat lng lat2 lon2 : ℝ) : ℝ :=
  let phi1 := toRad lat
  let phi2 := toRad lat2
  let dphi := toRad (lat2 - lat)
  let dlam := toRad (lon2 - lng)
  let a := Real.sin (dphi / 2) * Real.sin (dphi / 2) +
    Real.cos phi1 * Real.cos phi2 * (Real.sin (dlam / 2) * Real.sin (dlam / 2))
  let c := 2 * atan2 (Real.sqrt a) (Real.sqrt (1 - a))
  6371000 * c

/-- The source's `isDuplicate` with its default 5-meter threshold: some
existing marker lies within 5 m of the candidate (the JS loop's early
`return true` is the disjunction). -/
def isDuplicate : List Marker → ℚ → ℚ → Prop
  | [], _, _ => False
  | m :: ms, lat, lng =>
    haversineDist (lat : ℝ) (lng : ℝ) ((m.position.1 : ℚ) : ℝ) ((m.position.2 : ℚ) : ℝ) ≤ 5 ∨
      isDuplicate ms lat lng

/-- Outcome of a map-click add (alert texts abstracted to tags). -/
inductive AddOutcome
  | added
  | invalidCoordinate
  | duplicateRejected
deriving DecidableEq, Repr

open Classical in
/-- The source's `handleAddMarker`: range validation (every `ℚ` is
finite, so the JS `isFinite` conjuncts hold trivially), duplicate check,
then append of the defaulted marker with `id = Date.now()` (passed in as
`now`). -/
noncomputable def handleAddMarker (now : Nat) (markers : List Marker) (lat lng : ℚ) :
    AddOutcome × List Marker :=
  if lat < -90 ∨ lat > 90 ∨ lng < -180 ∨ lng > 180 then (.invalidCoordinate, markers)
  else if isDuplicate markers lat lng then (.duplicateRejected, markers)
  else (.added, markers ++
    [{ id := now, position := (lat, lng), title := "New Marker", description := "",
       category := "General", image := none }])

/-- The source's `handleTextChange` fields (`field` is one of the three
editable text fields; coordinates are not editable post-creation). -/
inductive MField
  | title
  | description
  | category
deriving DecidableEq, Repr

def setField (m : Marker) : MField → String → Marker
  | .title, v => { m with title := v }
  | .description, v => { m with description := v }
  | .category, v => { m with category := v }

/-- The source's `handleTextChange`: `prev.map(m => m.id === id ?
{...m, [field]: value} : m)`. -/
def handleTextChange (markers : List Marker) (id : Nat) (f : MField) (v : String) :
    List Marker :=
  markers.map (fun m => if m.id = id then setField m f v else m)

/- ---------------- CSV import (onFileSelected) ---------------- -/

/-- Per-row outcome of the import loop: exactly one marker or exactly
one error message. -/
inductive RowResult
  | ok (m : Marker)
  | err (msg : String)
deriving DecidableEq, Repr

open Classical in
/-- One iteration of the `rows.forEach` body of `onFileSelected`:
validation, then the duplicate check against the *pre-import* marker
state `pre` (the React `markers` closure, which does not see rows
accepted earlier in the same batch), then marker construction with
`id = Date.now() + i`. -/
noncomputable def processRow (pre : List Marker) (idx : ColIdx) (now i : Nat)
    (r : List (List Char)) : RowResult :=
  match validateRow idx i r with
  | .error e => .err e
  | .ok (t, d, lat, lng, c) =>
    if isDuplicate pre lat lng then
      .err ("Row " ++ toString (i + 2) ++ ": duplicate marker skipped")
    else
      .ok { id := now + i, position := (lat, lng), title := t, description := d,
            category := c, image := none }

noncomputable def processRows (pre : List Marker) (idx : ColIdx) (now : Nat) :
    Nat → List (List (List Char)) → List RowResult
  | _, [] => []
  | i, r :: rs => processRow pre idx now i r :: processRows pre idx now (i + 1) rs

def okMarkers (rs : List RowResult) : List Marker :=
  rs.filterMap (fun x => match x with | .ok m => some m | .err _ => none)

def rowErrors (rs : List RowResult) : List String :=
  rs.filterMap (fun x => match x with | .ok _ => none | .err e => some e)

/-- The body of `onFileSelected` once the file text is available: parse,
locate the header columns by case-insensitive alias matching, fail the
whole import (`none`) when the latitude or longitude column is missing,
otherwise process every row and commit all accepted markers at the end.
Returns the new marker list, the (uncapped) row error list, and the
imported count. -/
noncomputable def importCSV (markers : List Marker) (now : Nat) (text : String) :
    Option (List Marker × List String × Nat) :=
  let p := parseCSV text.data
  let headers := p.1
  let rows := p.2
  let tIdx := headers.findIdx? (fun h => lowerCL h == "title".data)
  let dIdx := headers.findIdx? (fun h =>
    lowerCL h == "description".data || lowerCL h == "desc".data)
  let laIdx := headers.findIdx? (fun h =>
    lowerCL h == "latitude".data || lowerCL h == "lat".data)
  let loIdx := headers.findIdx? (fun h =>
    lowerCL h == "longitude".data || lowerCL h == "lon".data ||
    lowerCL h == "lng".data || lowerCL h == "long".data)
  let cIdx := headers.findIdx? (fun h =>
    lowerCL h == "category".data || lowerCL h == "cat".data)
  match laIdx, loIdx with
  | some la, some lo =>
    let idx : ColIdx := { title := tIdx, desc := dIdx, lat := la, lng := lo, cat := cIdx }
    let results := processRows markers idx now 0 rows
    some (markers ++ okMarkers results, rowErrors results, (okMarkers results).length)
  | _, _ => none

/- ---------------- Aggregation ---------------- -/

/-- `m.category || "General"` (unset modelled as `""`). -/
def normCat (m : Marker) : String := if m.category = "" then "General" else m.category

/-- `counts[cat] = (counts[cat] || 0) + 1` on a JS object: increment in
place if the key exists, else append (JS objects preserve insertion
order for these keys). -/
def bump : List (String × Nat) → String → List (String × Nat)
  | [], k => [(k, 1)]
  | (a, n) :: t, k => if a = k then (a, n + 1) :: t else (a, n) :: bump t k

/-- The Dashboard's category aggregation (`Object.entries(counts)` in
insertion order; the derived chart colors are presentation-only). -/
def dashboardData (ms : List Marker) : List (String × Nat) :=
  ms.foldl (fun acc m => bump acc (normCat m)) []

/-- `exportPDF`'s `catCounts`: one entry per fixed category, counted by
strict equality `m.category === c.key`. -/
def catCountsPDF (ms : List Marker) : List (String × Nat) :=
  CATEGORIES.map (fun c => (c, (ms.filter (fun m => m.category == c)).length))

/-- JS object lookup on an insertion-ordered association list. -/
def findVal {β : Type} (k : String) : List (String × β) → Option β
  | [] => none
  | p :: t => if p.1 = k then some p.2 else findVal k t

/- ---------------- Project registry ---------------- -/

/-- One saved map: `{name, markers, shapes}`.  Shape geometries are
opaque to the registry logic, hence the type parameter. -/
structure ProjectData (σ : Type) where
  name : String
  markers : List Marker
  shapes : List σ

/-- The component state relevant to the multi-map manager: the
`savedMaps` object (insertion-ordered key/value list), the active key,
and the active markers/shapes views. -/
structure AppState (σ : Type) where
  savedMaps : List (String × ProjectData σ)
  currentMap : String
  markers : List Marker
  shapes : List σ

inductive DeleteOutcome
  | protectedProject
  | deleted
deriving DecidableEq, Repr

/-- The source's `handleDeleteMap` (with the `window.confirm` accepted —
confirmation is an external-collaborator concern): refuse to delete the
`"default"` key; otherwise remove the active key, activate
`Object.keys(updated)[0] || "default"` and load its markers/shapes. -/
def handleDeleteMap {σ : Type} (s : AppState σ) : DeleteOutcome × AppState σ :=
  if s.currentMap = "default" then (.protectedProject, s)
  else
    let updated := s.savedMaps.filter (fun p => p.1 != s.currentMap)
    let nextMap :=
      match updated.head? with
      | none => "default"
      | some p => if p.1 = "" then "default" else p.1
    let proj := findVal nextMap updated
    (.deleted,
     { savedMaps := updated
       currentMap := nextMap
       markers := (proj.map ProjectData.markers).getD []
       shapes := (proj.map ProjectData.shapes).getD [] })

/- ---------------- Operation sequences ---------------- -/

/-- A marker-creating user operation with the `Date.now()` value the
browser would supply: a map click or a CSV file import. -/
inductive MapOp
  | click (t : Nat) (lat lng : ℚ)
  | importFile (t : Nat) (text : String)

noncomputable def applyOp (markers : List Marker) : MapOp → List Marker
  | .click t lat lng => (handleAddMarker t markers lat lng).2
  | .importFile t text =>
    match importCSV markers t text with
    | some (ms, _, _) => ms
    | none => markers

/-- Marker store reached from an empty store by a sequence of
operations. -/
noncomputable def runOps (ops : List MapOp) : List Marker :=
  ops.foldl applyOp []

/- ---------------- Spec-side definitions for comparison ---------------- -/

/-- The (title, description, lat, lng, category) tuple of a marker — the
id-independent content the round-trip property talks about. -/
def tupleOf (m : Marker) : String × String × ℚ × ℚ × String :=
  (m.title, m.description, m.position.1, m.position.2, m.category)

/-- A field enclosed in double quotes with embedded quotes doubled, as
the spec's export description demands. -/
def quoteCSVField (s : String) : String := "\"" ++ String.mk (escQuotes s.data) ++ "\""

def joinLinesStr : List String → String
  | [] => ""
  | [s] => s
  | s :: rest => s ++ "\n" ++ joinLinesStr rest

/-- The export format exactly as the claim words it: header row then one
row per marker in which EVERY field (including latitude, longitude and
category) is double-quoted with doubling-escapes. -/
def claimAllQuotedCSV (ms : List Marker) : String :=
  joinLinesStr ("Title,Description,Latitude,Longitude,Category" ::
    ms.map (fun m =>
      quoteCSVField m.title ++ "," ++ quoteCSVField m.description ++ "," ++
      quoteCSVField (ratToString m.position.1) ++ "," ++
      quoteCSVField (ratToString m.position.2) ++ "," ++
      quoteCSVField m.category))

/-- The amended export format: title and description double-quoted with
doubling-escapes, latitude/longitude/category written raw. -/
def amendedCSV (ms : List Marker) : String :=
  joinLinesStr ("Title,Description,Latitude,Longitude,Category" ::
    ms.map (fun m =>
      quoteCSVField m.title ++ "," ++ quoteCSVField m.description ++ "," ++
      ratToString m.position.1 ++ "," ++ ratToString m.position.2 ++ "," ++ m.category))

/-- Values with a terminating decimal expansion (every IEEE double has
`den = 2^e`, `e ≤ 1074`, hence satisfies this). -/
def DecimalRep (q : ℚ) : Prop := q.den ∣ 10 ^ 1200

/-- Text that survives the naive CSV quote/trim round trip: nonempty, no
double quote, no line break, and invariant under trimming. -/
def CleanText (s : String) : Prop :=
  s.data ≠ [] ∧ (∀ c ∈ s.data, c ≠ '"' ∧ c ≠ '\n' ∧ c ≠ '\r') ∧ trimCL s.data = s.data

/-- A marker whose content the CSV codec can round-trip: clean text
fields, a category from the fixed enumeration, and in-range coordinates
with terminating decimal expansions. -/
def RoundTrippable (m : Marker) : Prop :=
  CleanText m.title ∧ CleanText m.description ∧ m.category ∈ CATEGORIES ∧
  -90 ≤ m.position.1 ∧ m.position.1 ≤ 90 ∧ -180 ≤ m.position.2 ∧ m.position.2 ≤ 180 ∧
  DecimalRep m.position.1 ∧ DecimalRep m.position.2

/-- Markers counted under a category key after the `|| "General"`
normalization — the reference count the Dashboard aggregation is
compared against. -/
def countCat (ms : List Marker) (k : String) : Nat :=
  (ms.filter (fun m => normCat m == k)).length

/-- The field lists `parseCSV` recovers from an exported data row:
title, description, the two printed coordinates, category. -/
def rowFields (m : Marker) : List (List Char) :=
  [m.title.data, m.description.data,
   (ratToString m.position.1).data, (ratToString m.position.2).data, m.category.data]

/- ==================== Lemmas: haversine values ==================== -/

theorem atan2_pos_x (y x : ℝ) (hx : 0 < x) : atan2 y x = Real.arctan (y / x) := by
  simp [atan2, hx]

/-- The haversine distance from any point to itself is zero. -/
theorem haversineDist_self (lat lng : ℝ) : haversineDist lat lng lat lng = 0 := by
  unfold haversineDist toRad
  simp [atan2, Real.arctan_zero]

/-- The haversine distance from the equator point (0,0) to the pole
(90,0) is a quarter of the great circle. -/
theorem haversineDist_qturn : haversineDist 0 0 90 0 = 6371000 * (Real.pi / 2) := by
  unfold haversineDist toRad
  have h90 : (90 : ℝ) * Real.pi / 180 / 2 = Real.pi / 4 := by ring
  have hs : Real.sin ((90 - 0) * Real.pi / 180 / 2) = Real.sqrt 2 / 2 := by
    rw [show ((90 : ℝ) - 0) * Real.pi / 180 / 2 = Real.pi / 4 by ring]
    exact Real.sin_pi_div_four
  have ha : Real.sin ((90 - 0) * Real.pi / 180 / 2) * Real.sin ((90 - 0) * Real.pi / 180 / 2) +
      Real.cos (0 * Real.pi / 180) * Real.cos (90 * Real.pi / 180) *
        (Real.sin ((0 - 0) * Real.pi / 180 / 2) * Real.sin ((0 - 0) * Real.pi / 180 / 2)) =
      1 / 2 := by
    rw [hs]
    have : Real.sqrt 2 * Real.sqrt 2 = 2 := Real.mul_self_sqrt (by norm_num)
    simp
    nlinarith [this]
  simp only [ha]
  have hpos : (0 : ℝ) < Real.sqrt (1 - 1 / 2) := Real.sqrt_pos.mpr (by norm_num)
  have h12 : Real.sqrt (1 / 2) = Real.sqrt (1 - 1 / 2) := by norm_num
  rw [atan2_pos_x _ _ (h12 ▸ hpos), h12, div_self (ne_of_gt hpos), Real.arctan_one]
  ring

/-- A candidate about 1.1 m past the pole marker: within the 5 m
duplicate threshold even though its latitude 90.00001 is out of range. -/
theorem haversineDist_near_pole : haversineDist (9000001 / 100000) 0 90 0 ≤ 5 := by
  have hpi := Real.pi_pos
  have hpile := Real.pi_lt_d2
  have ht0 : (0 : ℝ) ≤ Real.pi / 36000000 := by positivity
  have htpi2 : Real.pi / 36000000 < Real.pi / 2 := by nlinarith
  have htpi : Real.pi / 36000000 ≤ Real.pi := by nlinarith
  have hsin0 : 0 ≤ Real.sin (Real.pi / 36000000) :=
    Real.sin_nonneg_of_nonneg_of_le_pi ht0 htpi
  have hcos : 0 < Real.cos (Real.pi / 36000000) :=
    Real.cos_pos_of_mem_Ioo ⟨by nlinarith, htpi2⟩
  simp only [haversineDist, toRad]
  rw [show ((90 : ℝ) - 9000001 / 100000) * Real.pi / 180 / 2 = -(Real.pi / 36000000) by ring,
      show ((0 : ℝ) - 0) * Real.pi / 180 / 2 = 0 by ring,
      Real.sin_zero, Real.sin_neg]
  rw [show -Real.sin (Real.pi / 36000000) * -Real.sin (Real.pi / 36000000) =
      Real.sin (Real.pi / 36000000) * Real.sin (Real.pi / 36000000) by ring]
  simp only [mul_zero, add_zero]
  rw [Real.sqrt_mul_self hsin0]
  have h1 : (1 : ℝ) - Real.sin (Real.pi / 36000000) * Real.sin (Real.pi / 36000000) =
      Real.cos (Real.pi / 36000000) * Real.cos (Real.pi / 36000000) := by
    have h := Real.sin_sq_add_cos_sq (Real.pi / 36000000)
    nlinarith [h]
  rw [h1, Real.sqrt_mul_self (le_of_lt hcos)]
  rw [atan2_pos_x _ _ hcos, ← Real.tan_eq_sin_div_cos,
      Real.arctan_tan (by nlinarith) htpi2]
  nlinarith

/- ==================== Lemmas: isDuplicate ==================== -/

theorem isDuplicate_nil (lat lng : ℚ) : ¬ isDuplicate [] lat lng := fun h => h

theorem isDuplicate_cons (m : Marker) (ms : List Marker) (lat lng : ℚ) :
    isDuplicate (m :: ms) lat lng ↔
      haversineDist (lat : ℝ) (lng : ℝ) ((m.position.1 : ℚ) : ℝ) ((m.position.2 : ℚ) : ℝ) ≤ 5 ∨
        isDuplicate ms lat lng := Iff.rfl

/-- A candidate at exactly the position of a stored marker is always a
duplicate (distance 0 ≤ 5 m). -/
theorem isDuplicate_of_mem (ms : List Marker) (m : Marker) (hm : m ∈ ms) :
    isDuplicate ms m.position.1 m.position.2 := by
  induction ms with
  | nil => cases hm
  | cons a t ih =>
    rcases List.mem_cons.mp hm with h | h
    · left
      subst h
      rw [haversineDist_self]
      norm_num
    · right
      exact ih h

/- ==================== Lemmas: import rows ==================== -/

theorem okMarkers_mem_iff (rs : List RowResult) (m : Marker) :
    m ∈ okMarkers rs ↔ RowResult.ok m ∈ rs := by
  unfold okMarkers
  rw [List.mem_filterMap]
  constructor
  · rintro ⟨a, ha, hfa⟩
    cases a with
    | ok m2 => simp at hfa; subst hfa; exact ha
    | err e => simp at hfa
  · intro h
    exact ⟨RowResult.ok m, h, rfl⟩

theorem processRow_ok_id (pre : List Marker) (idx : ColIdx) (now i : Nat)
    (r : List (List Char)) (m : Marker)
    (h : processRow pre idx now i r = .ok m) : m.id = now + i := by
  unfold processRow at h
  cases hv : validateRow idx i r with
  | error e => rw [hv] at h; cases h
  | ok v =>
    obtain ⟨t, d, lat, lng, c⟩ := v
    rw [hv] at h
    simp only at h
    by_cases hd : isDuplicate pre lat lng
    · rw [if_pos hd] at h; cases h
    · rw [if_neg hd] at h
      cases h
      rfl

theorem processRows_ok_id_ge (pre : List Marker) (idx : ColIdx) (now : Nat) :
    ∀ (rs : List (List (List Char))) (i : Nat) (m : Marker),
      RowResult.ok m ∈ processRows pre idx now i rs → now + i ≤ m.id := by
  intro rs
  induction rs with
  | nil => intro i m h; cases h
  | cons r rest ih =>
    intro i m h
    rcases List.mem_cons.mp h with h1 | h1
    · rw [processRow_ok_id pre idx now i r m h1.symm]
    · have := ih (i + 1) m h1
      omega

theorem processRows_ids_nodup (pre : List Marker) (idx : ColIdx) (now : Nat) :
    ∀ (rs : List (List (List Char))) (i : Nat),
      ((okMarkers (processRows pre idx now i rs)).map Marker.id).Nodup := by
  intro rs
  induction rs with
  | nil => intro i; simp [processRows, okMarkers]
  | cons r rest ih =>
    intro i
    show ((okMarkers (processRow pre idx now i r :: processRows pre idx now (i + 1) rest)).map
      Marker.id).Nodup
    cases hr : processRow pre idx now i r with
    | err e =>
      show ((okMarkers (RowResult.err e :: processRows pre idx now (i + 1) rest)).map
        Marker.id).Nodup
      simpa [okMarkers] using ih (i + 1)
    | ok m =>
      show ((okMarkers (RowResult.ok m :: processRows pre idx now (i + 1) rest)).map
        Marker.id).Nodup
      have hcons : okMarkers (RowResult.ok m :: processRows pre idx now (i + 1) rest) =
          m :: okMarkers (processRows pre idx now (i + 1) rest) := by
        simp [okMarkers]
      rw [hcons]
      refine List.nodup_cons.mpr ⟨?_, ih (i + 1)⟩
      intro hmem
      rcases List.mem_map.mp hmem with ⟨m2, hm2, hid⟩
      have h1 : now + (i + 1) ≤ m2.id :=
        processRows_ok_id_ge pre idx now rest (i + 1) m2 ((okMarkers_mem_iff _ _).mp hm2)
      have h2 : m.id = now + i := processRow_ok_id pre idx now i r m hr
      omega

/- ==================== C10: field update frame ==================== -/

/-- C10: `handleTextChange` preserves the number and order of markers,
leaves every marker with a different id unchanged, changes only the
named field of matching markers, and is the identity when no marker has
the given id. -/
theorem handleTextChange_frame (ms : List Marker) (id : Nat) (f : MField) (v : String) :
    (handleTextChange ms id f v).length = ms.length ∧
    (∀ j : Nat, (handleTextChange ms id f v)[j]? =
      (ms[j]?).map (fun m => if m.id = id then setField m f v else m)) ∧
    (∀ (m : Marker) (w : String),
      (setField m f w).id = m.id ∧ (setField m f w).position = m.position ∧
      (setField m f w).image = m.image ∧
      (f ≠ MField.title → (setField m f w).title = m.title) ∧
      (f ≠ MField.description → (setField m f w).description = m.description) ∧
      (f ≠ MField.category → (setField m f w).category = m.category)) ∧
    ((∀ m ∈ ms, m.id ≠ id) → handleTextChange ms id f v = ms) := by
  refine ⟨List.length_map _ _, ?_, ?_, ?_⟩
  · intro j
    exact List.getElem?_map _ ms j
  · intro m w
    cases f <;> simp [setField]
  · intro h
    unfold handleTextChange
    have heq : ∀ m ∈ ms, (if m.id = id then setField m f v else m) = m :=
      fun m hm => if_neg (h m hm)
    rw [List.map_congr_left heq, List.map_id' ms]

/-- Witness for C10 at a concrete store: updating an id that is absent
leaves the store untouched. -/
theorem handleTextChange_frame_witness :
    handleTextChange [⟨1, (0, 0), "a", "b", "General", none⟩] 2 MField.title "x" =
      [⟨1, (0, 0), "a", "b", "General", none⟩] :=
  (handleTextChange_frame [⟨1, (0, 0), "a", "b", "General", none⟩] 2 MField.title "x").2.2.2
    (by decide)

/- ==================== C7: project delete ==================== -/

/-- C7: deleting the reserved `"default"` project always fails with the
protected-project outcome and leaves all state unchanged; deleting any
other (always the active) key removes exactly that registry entry and
reassigns the active key to the first remaining key in iteration order,
falling back to `"default"` when none remain. -/
theorem handleDeleteMap_spec {σ : Type} (s : AppState σ) :
    (s.currentMap = "default" →
      handleDeleteMap s = (DeleteOutcome.protectedProject, s)) ∧
    (s.currentMap ≠ "default" →
      (handleDeleteMap s).1 = DeleteOutcome.deleted ∧
      (∀ p : String × ProjectData σ,
        p ∈ (handleDeleteMap s).2.savedMaps ↔ p ∈ s.savedMaps ∧ p.1 ≠ s.currentMap) ∧
      ((handleDeleteMap s).2.savedMaps = [] →
        (handleDeleteMap s).2.currentMap = "default") ∧
      (∀ (q : String × ProjectData σ) (rest : List (String × ProjectData σ)),
        (handleDeleteMap s).2.savedMaps = q :: rest → q.1 ≠ "" →
        (handleDeleteMap s).2.currentMap = q.1)) := by
  constructor
  · intro h
    unfold handleDeleteMap
    rw [if_pos h]
  · intro h
    unfold handleDeleteMap
    rw [if_neg h]
    refine ⟨rfl, ?_, ?_, ?_⟩
    · intro p
      simp [List.mem_filter]
    · intro hemp
      simp only at hemp ⊢
      rw [hemp]
      rfl
    · intro q rest hq hne
      simp only at hq ⊢
      rw [hq]
      simp [hne]

/-- Witness for C7: deleting a non-default active project from a
two-project registry keeps only `"default"` and activates it. -/
theorem handleDeleteMap_spec_witness :
    handleDeleteMap
      { savedMaps := [("default", ⟨"Default Map", [], []⟩), ("map_1", ⟨"Survey", [], []⟩)],
        currentMap := "map_1", markers := [], shapes := ([] : List Unit) } =
      (DeleteOutcome.deleted,
       { savedMaps := [("default", ⟨"Default Map", [], []⟩)], currentMap := "default",
         markers := [], shapes := ([] : List Unit) }) := by
  have h := (handleDeleteMap_spec
    { savedMaps := [("default", ⟨"Default Map", [], []⟩), ("map_1", ⟨"Survey", [], []⟩)],
      currentMap := "map_1", markers := [], shapes := ([] : List Unit) }).2 (by decide)
  rfl

/- ==================== Lemmas: strings ==================== -/

theorem stringData_ext {s t : String} (h : s.data = t.data) : s = t := by
  cases s
  cases t
  exact congrArg String.mk h

theorem joinLinesStr_mk (ls : List (List Char)) :
    joinLinesStr (ls.map String.mk) = String.mk (joinNL ls) := by
  match ls with
  | [] => rfl
  | [l] => rfl
  | l :: l2 :: rest =>
    have ih := joinLinesStr_mk (l2 :: rest)
    show String.mk l ++ "\n" ++ joinLinesStr ((l2 :: rest).map String.mk) = _
    rw [ih]
    show String.mk ((l ++ ['\n']) ++ joinNL (l2 :: rest)) = _
    congr 1
    rw [List.append_assoc]
    rfl

theorem amendedRow_eq (m : Marker) :
    quoteCSVField m.title ++ "," ++ quoteCSVField m.description ++ "," ++
      ratToString m.position.1 ++ "," ++ ratToString m.position.2 ++ "," ++ m.category =
    String.mk (rowChars m) := by
  apply stringData_ext
  have hc : (",").data = [','] := rfl
  have hq : ("\"").data = ['"'] := rfl
  simp [String.data_append, quoteCSVField, quoteField, rowChars, hc, hq]

/- ==================== C2: CSV export format ==================== -/

set_option maxRecDepth 100000 in
/-- C2 counterexample: on a marker with coordinates 10, 20 and category
"General" the export does NOT quote the latitude, longitude and category
fields, so the all-fields-quoted format the claim describes differs from
the produced text. -/
theorem export_all_quoted_cex :
    markersToCSVString [⟨1, (10, 20), "A", "B", "General", none⟩] ≠
      claimAllQuotedCSV [⟨1, (10, 20), "A", "B", "General", none⟩] := by
  decide

set_option maxRecDepth 100000 in
/-- C2 amended: the export consists of the header row followed by one
row per marker in store order, in which title and description are
double-quoted with embedded quotes doubled, while latitude, longitude
and category are written raw (unquoted). -/
theorem markersToCSVString_spec (ms : List Marker) :
    markersToCSVString ms = amendedCSV ms := by
  have hl : "Title,Description,Latitude,Longitude,Category" ::
      ms.map (fun m =>
        quoteCSVField m.title ++ "," ++ quoteCSVField m.description ++ "," ++
        ratToString m.position.1 ++ "," ++ ratToString m.position.2 ++ "," ++ m.category) =
      (csvHeader :: ms.map rowChars).map String.mk := by
    rw [List.map_cons, List.map_map]
    congr 1
    exact List.map_congr_left (fun m _ => amendedRow_eq m)
  show _ = joinLinesStr _
  rw [hl, joinLinesStr_mk]
  rfl

/- ==================== C4: category aggregation ==================== -/

theorem findVal_bump_self (acc : List (String × Nat)) (k : String) :
    findVal k (bump acc k) = some ((findVal k acc).getD 0 + 1) := by
  induction acc with
  | nil => simp [bump, findVal]
  | cons p t ih =>
    obtain ⟨a, n⟩ := p
    by_cases h : a = k
    · subst h
      simp [bump, findVal]
    · simp [bump, findVal, h, ih]

theorem findVal_bump_ne (acc : List (String × Nat)) (k k' : String) (h : k ≠ k') :
    findVal k (bump acc k') = findVal k acc := by
  have h2 : ¬ k' = k := fun e => h e.symm
  induction acc with
  | nil => simp [bump, findVal, h2]
  | cons p t ih =>
    obtain ⟨a, n⟩ := p
    by_cases ha : a = k'
    · subst ha
      simp [bump, findVal, h2]
    · by_cases hak : a = k
      · subst hak
        simp [bump, findVal, ha]
      · simp [bump, findVal, ha, hak, ih]

theorem dashboard_fold (ms : List Marker) : ∀ (acc : List (String × Nat)) (k : String),
    findVal k (ms.foldl (fun a m => bump a (normCat m)) acc) =
      match findVal k acc with
      | some n => some (n + countCat ms k)
      | none => if countCat ms k = 0 then none else some (countCat ms k) := by
  induction ms with
  | nil =>
    intro acc k
    cases h : findVal k acc <;> simp [countCat, h]
  | cons m rest ih =>
    intro acc k
    show findVal k (rest.foldl _ (bump acc (normCat m))) = _
    rw [ih (bump acc (normCat m)) k]
    by_cases hm : normCat m = k
    · have hc : countCat (m :: rest) k = countCat rest k + 1 := by
        simp [countCat, hm]
      rw [hm, findVal_bump_self, hc]
      cases h : findVal k acc <;> simp [h] <;> omega
    · have hc : countCat (m :: rest) k = countCat rest k := by
        simp [countCat, List.filter_cons, hm]
      rw [findVal_bump_ne acc k (normCat m) (Ne.symm hm), hc]

/-- C4 amended: the Dashboard aggregation counts unset categories under
"General" but reports only the categories that actually occur (a
zero-count category is absent from its mapping), while the PDF-report
aggregation reports every fixed category including zeros but counts by
strict equality, so markers with an unset category are counted under no
key; on [Shop, Shop, unset] they produce {Shop: 2, General: 1} and
{General: 0, Restaurant: 0, College: 0, Event: 0, Shop: 2}. -/
theorem categoryCounts_spec :
    (∀ (ms : List Marker) (k : String),
      findVal k (dashboardData ms) =
        if countCat ms k = 0 then none else some (countCat ms k)) ∧
    (∀ (ms : List Marker) (c : String), c ∈ CATEGORIES →
      findVal c (catCountsPDF ms) =
        some ((ms.filter (fun m => m.category == c)).length)) ∧
    dashboardData [⟨1, (0, 0), "s1", "", "Shop", none⟩, ⟨2, (1, 1), "s2", "", "Shop", none⟩,
      ⟨3, (2, 2), "u", "", "", none⟩] = [("Shop", 2), ("General", 1)] ∧
    catCountsPDF [⟨1, (0, 0), "s1", "", "Shop", none⟩, ⟨2, (1, 1), "s2", "", "Shop", none⟩,
      ⟨3, (2, 2), "u", "", "", none⟩] =
      [("General", 0), ("Restaurant", 0), ("College", 0), ("Event", 0), ("Shop", 2)] := by
  refine ⟨?_, ?_, by decide, by decide⟩
  · intro ms k
    have h := dashboard_fold ms [] k
    simpa [findVal, dashboardData] using h
  · intro ms c hc
    simp only [CATEGORIES, List.mem_cons, List.not_mem_nil, or_false] at hc
    rcases hc with h | h | h | h | h <;> subst h <;>
      simp [catCountsPDF, CATEGORIES, findVal]

/-- Witness for C4's general clauses at a concrete store. -/
theorem categoryCounts_spec_witness :
    findVal "Shop" (catCountsPDF [⟨1, (0, 0), "t", "", "Shop", none⟩]) = some 1 := by
  have h := categoryCounts_spec.2.1 [⟨1, (0, 0), "t", "", "Shop", none⟩] "Shop" (by decide)
  rw [h]
  decide

/-- C4 counterexample: on the claim's own example the Dashboard mapping
has no entry at all for "Restaurant" (the claim demands count 0) and the
PDF mapping reports "General" as 0 (the claim demands 1, counting the
unset-category marker). -/
theorem categoryCounts_claim_cex :
    findVal "Restaurant" (dashboardData [⟨1, (0, 0), "s1", "", "Shop", none⟩,
      ⟨2, (1, 1), "s2", "", "Shop", none⟩, ⟨3, (2, 2), "u", "", "", none⟩]) = none ∧
    findVal "General" (catCountsPDF [⟨1, (0, 0), "s1", "", "Shop", none⟩,
      ⟨2, (1, 1), "s2", "", "Shop", none⟩, ⟨3, (2, 2), "u", "", "", none⟩]) = some 0 := by
  decide

/- ==================== Lemmas: decimal digits ==================== -/

theorem natDigitsGo_congr (f1 : Nat) : ∀ (f2 n : Nat), n < f1 → n < f2 →
    natDigitsGo f1 n = natDigitsGo f2 n := by
  induction f1 with
  | zero => intro f2 n h; omega
  | succ f ih =>
    intro f2 n h1 h2
    cases f2 with
    | zero => omega
    | succ g =>
      by_cases hn : n < 10
      · simp [natDigitsGo, hn]
      · have hd : n / 10 < n := Nat.div_lt_self (by omega) (by omega)
        simp only [natDigitsGo, if_neg hn]
        rw [ih g (n / 10) (by omega) (by omega)]

/-- The intended recursion of `natDigits` (the fuel never runs out). -/
theorem natDigits_eq (n : Nat) : natDigits n =
    if n < 10 then [Nat.digitChar n]
    else natDigits (n / 10) ++ [Nat.digitChar (n % 10)] := by
  show natDigitsGo (n + 1) n = _
  by_cases h : n < 10
  · simp [natDigitsGo, h]
  · have hd : n / 10 < n := Nat.div_lt_self (by omega) (by omega)
    simp only [natDigitsGo, if_neg h]
    rw [natDigitsGo_congr n (n / 10 + 1) (n / 10) (by omega) (by omega)]
    rfl

theorem digitChar_isDigit (d : Nat) (h : d < 10) : (Nat.digitChar d).isDigit = true := by
  interval_cases d <;> decide

theorem natDigits_all_digit (n : Nat) : ∀ c ∈ natDigits n, c.isDigit = true := by
  induction n using Nat.strong_induction_on with
  | _ n ih =>
    intro c hc
    rw [natDigits_eq] at hc
    by_cases h : n < 10
    · rw [if_pos h] at hc
      simp at hc
      subst hc
      exact digitChar_isDigit n h
    · rw [if_neg h] at hc
      rcases List.mem_append.mp hc with h1 | h1
      · exact ih (n / 10) (Nat.div_lt_self (by omega) (by omega)) c h1
      · simp at h1
        subst h1
        exact digitChar_isDigit _ (Nat.mod_lt _ (by omega))

theorem natDigits_ne_nil (n : Nat) : natDigits n ≠ [] := by
  rw [natDigits_eq]
  by_cases h : n < 10
  · simp [h]
  · simp [h]

theorem digitsToNatCore_from (b : List Char) : ∀ i : Nat,
    b.foldl (fun a c => a * 10 + (c.toNat - 48)) i =
      i * 10 ^ b.length + digitsToNatCore b := by
  induction b with
  | nil => intro i; simp [digitsToNatCore]
  | cons c t ih =>
    intro i
    show t.foldl _ (i * 10 + (c.toNat - 48)) = _
    rw [ih (i * 10 + (c.toNat - 48))]
    have h2 : digitsToNatCore (c :: t) =
        (c.toNat - 48) * 10 ^ t.length + digitsToNatCore t := by
      show t.foldl _ ((0 : Nat) * 10 + (c.toNat - 48)) = _
      rw [ih ((0 : Nat) * 10 + (c.toNat - 48))]
      ring
    rw [h2, List.length_cons, pow_succ]
    ring

theorem digitChar_val (d : Nat) (h : d < 10) : (Nat.digitChar d).toNat - 48 = d := by
  interval_cases d <;> decide

theorem digitsToNatCore_natDigits (n : Nat) : digitsToNatCore (natDigits n) = n := by
  induction n using Nat.strong_induction_on with
  | _ n ih =>
    rw [natDigits_eq]
    by_cases h : n < 10
    · rw [if_pos h]
      show (0 : Nat) * 10 + ((Nat.digitChar n).toNat - 48) = n
      rw [digitChar_val n h]
      omega
    · rw [if_neg h]
      unfold digitsToNatCore
      rw [List.foldl_append]
      show List.foldl _ (digitsToNatCore (natDigits (n / 10))) _ = n
      rw [digitsToNatCore_from]
      rw [ih (n / 10) (Nat.div_lt_self (by omega) (by omega))]
      show n / 10 * 10 ^ 1 + (0 * 10 + ((Nat.digitChar (n % 10)).toNat - 48)) = n
      rw [digitChar_val _ (Nat.mod_lt _ (by omega))]
      omega

theorem digitsToNat?_natDigits (n : Nat) : digitsToNat? (natDigits n) = some n := by
  unfold digitsToNat?
  rw [if_pos ⟨natDigits_ne_nil n, List.all_eq_true.mpr (natDigits_all_digit n)⟩,
    digitsToNatCore_natDigits]

theorem natDigits_length_le (n : Nat) : ∀ k : Nat, n < 10 ^ k → 0 < k →
    (natDigits n).length ≤ k := by
  induction n using Nat.strong_induction_on with
  | _ n ih =>
    intro k hn hk
    rw [natDigits_eq]
    by_cases h : n < 10
    · simp [h]
      omega
    · rw [if_neg h]
      have hk2 : 2 ≤ k := by
        by_contra hcon
        have hx : k = 1 := by omega
        subst hx
        simp at hn
        omega
      have hdiv : n / 10 < 10 ^ (k - 1) := by
        rw [Nat.div_lt_iff_lt_mul (by omega)]
        have hx : 10 ^ (k - 1) * 10 = 10 ^ k := by
          rw [← pow_succ]
          congr 1
          omega
        omega
      have hlen := ih (n / 10) (Nat.div_lt_self (by omega) (by omega)) (k - 1) hdiv (by omega)
      simp
      omega

theorem digitsToNatCore_zeros (j : Nat) (ds : List Char) :
    digitsToNatCore (List.replicate j '0' ++ ds) = digitsToNatCore ds := by
  unfold digitsToNatCore
  rw [List.foldl_append]
  congr 1
  induction j with
  | zero => rfl
  | succ i ih =>
    show List.foldl _ ((0 : Nat) * 10 + ('0'.toNat - 48)) (List.replicate i '0') = 0
    simpa using ih

theorem digitsOrZero?_padded (j : Nat) (n : Nat) :
    digitsOrZero? (List.replicate j '0' ++ natDigits n) = some n := by
  have hall : (List.replicate j '0' ++ natDigits n).all Char.isDigit = true := by
    rw [List.all_eq_true]
    intro c hc
    rcases List.mem_append.mp hc with h1 | h1
    · rw [List.eq_of_mem_replicate h1]
      decide
    · exact natDigits_all_digit n c h1
  unfold digitsOrZero?
  rw [if_pos hall, digitsToNatCore_zeros, digitsToNatCore_natDigits]

/- ==================== Lemmas: parsing digit strings ==================== -/

/-- A decimal digit character is none of the syntax characters the CSV
codec and number parser treat specially. -/
theorem digit_char_ne (c : Char) (h : c.isDigit = true) :
    c ≠ 'e' ∧ c ≠ 'E' ∧ c ≠ '.' ∧ c ≠ '+' ∧ c ≠ '-' ∧ c ≠ '"' ∧ c ≠ ',' ∧
    c ≠ '\n' ∧ c ≠ '\r' ∧ c ≠ 'I' ∧ c ≠ 'x' ∧ c ≠ 'X' ∧ c ≠ 'o' ∧ c ≠ 'O' ∧
    c ≠ 'b' ∧ c ≠ 'B' ∧ isWS c = false := by
  have hv : 48 ≤ c.toNat ∧ c.toNat ≤ 57 := by
    simp [Char.isDigit] at h
    obtain ⟨h1, h2⟩ := h
    exact ⟨h1, h2⟩
  have hne : ∀ d : Char, ¬ (48 ≤ d.toNat ∧ d.toNat ≤ 57) → c ≠ d := by
    intro d hd he
    subst he
    exact hd hv
  have hws : isWS c = false := by
    unfold isWS
    have w1 : (c == ' ') = false := beq_eq_false_iff_ne.mpr (hne ' ' (by decide))
    have w2 : (c == '\t') = false := beq_eq_false_iff_ne.mpr (hne '\t' (by decide))
    have w3 : (c == '\n') = false := beq_eq_false_iff_ne.mpr (hne '\n' (by decide))
    have w4 : (c == '\r') = false := beq_eq_false_iff_ne.mpr (hne '\r' (by decide))
    have w5 : (c == '\x0b') = false := beq_eq_false_iff_ne.mpr (hne '\x0b' (by decide))
    have w6 : (c == '\x0c') = false := beq_eq_false_iff_ne.mpr (hne '\x0c' (by decide))
    rw [w1, w2, w3, w4, w5, w6]
    rfl
  exact ⟨hne 'e' (by decide), hne 'E' (by decide), hne '.' (by decide), hne '+' (by decide),
    hne '-' (by decide), hne '"' (by decide), hne ',' (by decide), hne '\n' (by decide),
    hne '\r' (by decide), hne 'I' (by decide), hne 'x' (by decide), hne 'X' (by decide),
    hne 'o' (by decide), hne 'O' (by decide), hne 'b' (by decide), hne 'B' (by decide), hws⟩

theorem splitFirst_none (p : Char → Bool) (l : List Char) (h : ∀ c ∈ l, p c = false) :
    splitFirst p l = (l, none) := by
  induction l with
  | nil => rfl
  | cons c t ih =>
    unfold splitFirst
    rw [h c (by simp)]
    rw [ih (fun c2 hc2 => h c2 (by simp [hc2]))]
    simp

theorem splitFirst_mid (p : Char → Bool) (a : List Char) (s : Char) (rest : List Char)
    (ha : ∀ c ∈ a, p c = false) (hs : p s = true) :
    splitFirst p (a ++ s :: rest) = (a, some rest) := by
  induction a with
  | nil =>
    show splitFirst p (s :: rest) = _
    unfold splitFirst
    rw [hs]
    simp
  | cons c t ih =>
    show splitFirst p (c :: (t ++ s :: rest)) = _
    unfold splitFirst
    rw [ha c (by simp)]
    rw [ih (fun c2 hc2 => ha c2 (by simp [hc2]))]
    simp

theorem digit_ne (c : Char) (h : c.isDigit = true) (d : Char)
    (hd : ¬ (48 ≤ d.toNat ∧ d.toNat ≤ 57)) : c ≠ d := by
  intro he
  subst he
  simp [Char.isDigit] at h
  exact hd ⟨h.1, h.2⟩

theorem all_digits_ne_infinity (l : List Char) (h : ∀ c ∈ l, c.isDigit = true) :
    l ≠ "Infinity".data := by
  intro he
  have hm : 'I' ∈ l := by rw [he]; decide
  have := h 'I' hm
  exact absurd this (by decide)

/-- When the text is not `Infinity` and its second character is not a
radix prefix letter, `jsUnsigned` is just the decimal parser. -/
theorem jsUnsigned_decimal (l : List Char) (sgn : ℚ) (hs : Bool)
    (hI : l ≠ "Infinity".data)
    (h1 : ∀ c, l.get? 1 = some c →
      c ≠ 'x' ∧ c ≠ 'X' ∧ c ≠ 'o' ∧ c ≠ 'O' ∧ c ≠ 'b' ∧ c ≠ 'B') :
    jsUnsigned l sgn hs = jsDecimal l sgn := by
  unfold jsUnsigned
  rw [if_neg hI]
  cases l with
  | nil => rfl
  | cons c0 t =>
    cases t with
    | nil => rfl
    | cons c rest =>
      obtain ⟨hx, hX, ho, hO, hb, hB⟩ := h1 c rfl
      have hcon1 : ¬ (c0 = '0' ∧ (c = 'x' ∨ c = 'X') ∧ hs = false) := by
        rintro ⟨-, hor, -⟩
        rcases hor with h | h
        · exact hx h
        · exact hX h
      have hcon2 : ¬ (c0 = '0' ∧ (c = 'o' ∨ c = 'O') ∧ hs = false) := by
        rintro ⟨-, hor, -⟩
        rcases hor with h | h
        · exact ho h
        · exact hO h
      have hcon3 : ¬ (c0 = '0' ∧ (c = 'b' ∨ c = 'B') ∧ hs = false) := by
        rintro ⟨-, hor, -⟩
        rcases hor with h | h
        · exact hb h
        · exact hB h
      show (if c0 = '0' ∧ (c = 'x' ∨ c = 'X') ∧ hs = false then
          (baseToNat? 16 hexDigitVal? rest).map (fun n => (n : ℚ))
        else if c0 = '0' ∧ (c = 'o' ∨ c = 'O') ∧ hs = false then
          (baseToNat? 8 octDigitVal? rest).map (fun n => (n : ℚ))
        else if c0 = '0' ∧ (c = 'b' ∨ c = 'B') ∧ hs = false then
          (baseToNat? 2 binDigitVal? rest).map (fun n => (n : ℚ))
        else jsDecimal (c0 :: c :: rest) sgn) = jsDecimal (c0 :: c :: rest) sgn
      rw [if_neg hcon1, if_neg hcon2, if_neg hcon3]

theorem jsNumC_neg_sign (l : List Char) : jsNumC ('-' :: l) = jsUnsigned l (-1) true := by
  unfold jsNumC
  show (if ('-' : Char) = '+' then jsUnsigned l 1 true
    else if ('-' : Char) = '-' then jsUnsigned l (-1) true
    else jsUnsigned ('-' :: l) 1 false) = _
  rw [if_neg (by decide : ¬ ('-' : Char) = '+'), if_pos (rfl : ('-' : Char) = '-')]

theorem jsNumC_no_sign (c : Char) (rest : List Char) (hdig : c.isDigit = true) :
    jsNumC (c :: rest) = jsUnsigned (c :: rest) 1 false := by
  unfold jsNumC
  show (if c = '+' then jsUnsigned rest 1 true
    else if c = '-' then jsUnsigned rest (-1) true
    else jsUnsigned (c :: rest) 1 false) = _
  rw [if_neg (digit_ne c hdig '+' (by decide)), if_neg (digit_ne c hdig '-' (by decide))]

/-- Parsing a bare digit string. -/
theorem jsUnsigned_digits (ip : Nat) (sgn : ℚ) (hs : Bool) :
    jsUnsigned (natDigits ip) sgn hs = some (sgn * (ip : ℚ)) := by
  have hall := natDigits_all_digit ip
  have hI := all_digits_ne_infinity _ hall
  have h1 : ∀ c, (natDigits ip).get? 1 = some c →
      c ≠ 'x' ∧ c ≠ 'X' ∧ c ≠ 'o' ∧ c ≠ 'O' ∧ c ≠ 'b' ∧ c ≠ 'B' := by
    intro c hc
    have hdg := hall c (List.get?_mem hc)
    exact ⟨digit_ne c hdg 'x' (by decide), digit_ne c hdg 'X' (by decide),
      digit_ne c hdg 'o' (by decide), digit_ne c hdg 'O' (by decide),
      digit_ne c hdg 'b' (by decide), digit_ne c hdg 'B' (by decide)⟩
  rw [jsUnsigned_decimal _ _ _ hI h1]
  have hsf1 : splitFirst (fun c => c == 'e' || c == 'E') (natDigits ip) =
      (natDigits ip, none) := by
    apply splitFirst_none
    intro c hc
    have hdg := hall c hc
    simp [digit_ne c hdg 'e' (by decide), digit_ne c hdg 'E' (by decide)]
  have hsf2 : splitFirst (fun c => c == '.') (natDigits ip) = (natDigits ip, none) := by
    apply splitFirst_none
    intro c hc
    simp [digit_ne c (hall c hc) '.' (by decide)]
  simp [jsDecimal, hsf1, hsf2, digitsToNat?_natDigits]

/-- Parsing a digit string with a decimal point and zero-padded
fractional digits. -/
theorem jsUnsigned_digits_frac (ip frac k : Nat) (sgn : ℚ) (hs : Bool)
    (hk : 0 < k) (hfr : frac < 10 ^ k) :
    jsUnsigned (natDigits ip ++ '.' ::
        (List.replicate (k - (natDigits frac).length) '0' ++ natDigits frac)) sgn hs =
      some (sgn * ((ip : ℚ) + (frac : ℚ) / 10 ^ k)) := by
  set pad : List Char := List.replicate (k - (natDigits frac).length) '0' ++ natDigits frac
    with hpad
  have hpadall : ∀ c ∈ pad, c.isDigit = true := by
    intro c hc
    rcases List.mem_append.mp hc with h1 | h1
    · rw [List.eq_of_mem_replicate h1]
      decide
    · exact natDigits_all_digit frac c h1
  have hallip := natDigits_all_digit ip
  have hlen : pad.length = k := by
    have := natDigits_length_le frac k hfr hk
    simp only [hpad, List.length_append, List.length_replicate]
    omega
  have hI : natDigits ip ++ '.' :: pad ≠ "Infinity".data := by
    intro he
    obtain ⟨c, rest, hcr⟩ := List.exists_cons_of_ne_nil (natDigits_ne_nil ip)
    have hc : c ∈ natDigits ip := by rw [hcr]; simp
    have hdg := hallip c hc
    have hh : ('I' : Char) = c := by
      have := congrArg (fun l => l.head?) he
      rw [hcr] at this
      simp at this
      exact this.symm
    exact digit_ne c hdg 'I' (by decide) hh.symm
  have h1 : ∀ c2, (natDigits ip ++ '.' :: pad).get? 1 = some c2 →
      c2 ≠ 'x' ∧ c2 ≠ 'X' ∧ c2 ≠ 'o' ∧ c2 ≠ 'O' ∧ c2 ≠ 'b' ∧ c2 ≠ 'B' := by
    intro c2 hc2
    have hmem : c2 ∈ natDigits ip ++ '.' :: pad := List.get?_mem hc2
    rcases List.mem_append.mp hmem with h1 | h1
    · have hdg := hallip c2 h1
      exact ⟨digit_ne c2 hdg 'x' (by decide), digit_ne c2 hdg 'X' (by decide),
        digit_ne c2 hdg 'o' (by decide), digit_ne c2 hdg 'O' (by decide),
        digit_ne c2 hdg 'b' (by decide), digit_ne c2 hdg 'B' (by decide)⟩
    · rcases List.mem_cons.mp h1 with h2 | h2
      · subst h2
        refine ⟨by decide, by decide, by decide, by decide, by decide, by decide⟩
      · have hdg := hpadall c2 h2
        exact ⟨digit_ne c2 hdg 'x' (by decide), digit_ne c2 hdg 'X' (by decide),
          digit_ne c2 hdg 'o' (by decide), digit_ne c2 hdg 'O' (by decide),
          digit_ne c2 hdg 'b' (by decide), digit_ne c2 hdg 'B' (by decide)⟩
  rw [jsUnsigned_decimal _ _ _ hI h1]
  have hsf1 : splitFirst (fun c => c == 'e' || c == 'E') (natDigits ip ++ '.' :: pad) =
      (natDigits ip ++ '.' :: pad, none) := by
    apply splitFirst_none
    intro c hc
    rcases List.mem_append.mp hc with h2 | h2
    · have hdg := hallip c h2
      simp [digit_ne c hdg 'e' (by decide), digit_ne c hdg 'E' (by decide)]
    · rcases List.mem_cons.mp h2 with h3 | h3
      · subst h3
        decide
      · have hdg := hpadall c h3
        simp [digit_ne c hdg 'e' (by decide), digit_ne c hdg 'E' (by decide)]
  have hsf2 : splitFirst (fun c => c == '.') (natDigits ip ++ '.' :: pad) =
      (natDigits ip, some pad) := by
    apply splitFirst_mid
    · intro c hc
      simp [digit_ne c (hallip c hc) '.' (by decide)]
    · decide
  have hdot : ¬ ('.' ∈ pad) := by
    intro hm
    exact absurd (hpadall '.' hm) (by decide)
  have hnil : ¬ (natDigits ip = [] ∧ pad = []) := by
    rintro ⟨h2, -⟩
    exact natDigits_ne_nil ip h2
  have hz : digitsOrZero? (natDigits ip) = some ip := by
    unfold digitsOrZero?
    rw [if_pos (List.all_eq_true.mpr hallip), digitsToNatCore_natDigits]
  simp only [jsDecimal, hsf1]
  simp only [hsf2]
  rw [if_neg hdot, if_neg hnil, hz, digitsOrZero?_padded]
  simp [hlen]

theorem decExp_dvd (d k : Nat) (h : decExp d = some k) : d ∣ 10 ^ k := by
  have hp := List.find?_some h
  simp at hp
  exact Nat.dvd_of_mod_eq_zero hp

theorem decExp_of_decimalRep (q : ℚ) (h : DecimalRep q) : ∃ k, decExp q.den = some k := by
  cases hk : decExp q.den with
  | some k => exact ⟨k, rfl⟩
  | none =>
    exfalso
    have hall := List.find?_eq_none.mp hk 1200 (by simp)
    simp at hall
    obtain ⟨c, hc⟩ := h
    rw [hc] at hall
    simp [Nat.mul_mod_right] at hall

/-- Round trip through the JS number codec: parsing a printed value with
a terminating decimal expansion recovers it exactly (mirrors the JS
guarantee `Number(String(x)) === x`). -/
theorem jsNumC_ratToString (q : ℚ) (hq : DecimalRep q) :
    jsNumC (ratToString q).data = some q := by
  obtain ⟨k, hk⟩ := decExp_of_decimalRep q hq
  have hdvd : q.den ∣ 10 ^ k := decExp_dvd _ _ hk
  have hden : 0 < q.den := q.pos
  have hNden : q.num.natAbs * 10 ^ k / q.den * q.den = q.num.natAbs * 10 ^ k :=
    Nat.div_mul_cancel (hdvd.mul_left _)
  set N : Nat := q.num.natAbs * 10 ^ k / q.den with hN
  have hqv : ((q.num.natAbs : ℚ)) / (q.den : ℚ) = if q.num < 0 then -q else q := by
    rw [Int.cast_natAbs]
    by_cases hneg : q.num < 0
    · rw [if_pos hneg, abs_of_neg hneg]
      push_cast
      rw [neg_div, Rat.num_div_den]
    · rw [if_neg hneg, abs_of_nonneg (le_of_not_lt hneg), Rat.num_div_den]
  have hrs : (ratToString q).data = (if q.num < 0 then ['-'] else []) ++
      (natDigits (N / 10 ^ k) ++ (if k = 0 then [] else '.' ::
        (List.replicate (k - (natDigits (N % 10 ^ k)).length) '0' ++
          natDigits (N % 10 ^ k)))) := by
    unfold ratToString
    rw [hk]
    simp [List.append_assoc]
  rw [hrs]
  by_cases hk0 : k = 0
  · subst hk0
    have hden1 : q.den = 1 := Nat.dvd_one.mp (by simpa using hdvd)
    have hNval : (N : ℚ) = (q.num.natAbs : ℚ) / (q.den : ℚ) := by
      rw [hN, hden1]
      simp
    have hip : N / 10 ^ 0 = N := by simp
    rw [if_pos rfl, List.append_nil, hip]
    by_cases hneg : q.num < 0
    · rw [if_pos hneg]
      show jsNumC ('-' :: natDigits N) = some q
      rw [jsNumC_neg_sign, jsUnsigned_digits]
      apply congrArg
      rw [show (-1 : ℚ) * (N : ℚ) = -(N : ℚ) by ring, hNval, hqv, if_pos hneg, neg_neg]
    · rw [if_neg hneg, List.nil_append]
      obtain ⟨c, rest, hcr⟩ := List.exists_cons_of_ne_nil (natDigits_ne_nil N)
      have hdig : c.isDigit = true := natDigits_all_digit N c (by rw [hcr]; simp)
      rw [hcr, jsNumC_no_sign c rest hdig, ← hcr, jsUnsigned_digits]
      apply congrArg
      rw [one_mul, hNval, hqv, if_neg hneg]
  · have hkpos : 0 < k := Nat.pos_of_ne_zero hk0
    have hfr : N % 10 ^ k < 10 ^ k := Nat.mod_lt _ (by positivity)
    have hsplit : ((N / 10 ^ k : Nat) : ℚ) + ((N % 10 ^ k : Nat) : ℚ) / (10 : ℚ) ^ k =
        ((q.num.natAbs : ℚ)) / (q.den : ℚ) := by
      have h1 : 10 ^ k * (N / 10 ^ k) + N % 10 ^ k = N := Nat.div_add_mod N (10 ^ k)
      have h10 : ((10 : ℚ)) ^ k ≠ 0 := by positivity
      have hdq : ((q.den : ℚ)) ≠ 0 := by positivity
      have h2 : ((10 ^ k * (N / 10 ^ k) + N % 10 ^ k : Nat) : ℚ) * (q.den : ℚ) =
          ((q.num.natAbs : ℚ)) * (10 : ℚ) ^ k := by
        rw [h1]
        exact_mod_cast congrArg (fun n : Nat => (n : ℚ)) hNden
      push_cast at h2
      field_simp
      linear_combination h2
    rw [if_neg hk0]
    by_cases hneg : q.num < 0
    · rw [if_pos hneg]
      show jsNumC ('-' :: (natDigits (N / 10 ^ k) ++ '.' :: _)) = some q
      rw [jsNumC_neg_sign, jsUnsigned_digits_frac _ _ _ _ _ hkpos hfr]
      apply congrArg
      rw [hsplit, hqv, if_pos hneg]
      ring
    · rw [if_neg hneg, List.nil_append]
      obtain ⟨c, rest, hcr⟩ := List.exists_cons_of_ne_nil (natDigits_ne_nil (N / 10 ^ k))
      have hdig : c.isDigit = true := natDigits_all_digit _ c (by rw [hcr]; simp)
      rw [hcr, List.cons_append, jsNumC_no_sign c _ hdig, ← List.cons_append, ← hcr,
        jsUnsigned_digits_frac _ _ _ _ _ hkpos hfr]
      apply congrArg
      rw [hsplit, hqv, if_neg hneg]
      ring

theorem jsNumC_natDigits (n : Nat) : jsNumC (natDigits n) = some ((n : ℚ)) := by
  obtain ⟨c, rest, hcr⟩ := List.exists_cons_of_ne_nil (natDigits_ne_nil n)
  have hdig : c.isDigit = true := natDigits_all_digit n c (by rw [hcr]; simp)
  rw [hcr, jsNumC_no_sign c rest hdig, ← hcr, jsUnsigned_digits, one_mul]

/- ==================== Lemmas: the import pipeline ==================== -/

theorem processRow_err (pre : List Marker) (idx : ColIdx) (now i : Nat)
    (r : List (List Char)) (e : String) (hv : validateRow idx i r = Except.error e) :
    processRow pre idx now i r = .err e := by
  unfold processRow
  rw [hv]

open Classical in
theorem processRow_ok_not_dup (pre : List Marker) (idx : ColIdx) (now i : Nat)
    (r : List (List Char)) (t d : String) (lat lng : ℚ) (c : String)
    (hv : validateRow idx i r = Except.ok (t, d, lat, lng, c))
    (hnd : ¬ isDuplicate pre lat lng) :
    processRow pre idx now i r =
      .ok { id := now + i, position := (lat, lng), title := t, description := d,
            category := c, image := none } := by
  unfold processRow
  rw [hv]
  show (if isDuplicate pre lat lng then _ else _) = _
  rw [if_neg hnd]

open Classical in
theorem processRow_ok_dup (pre : List Marker) (idx : ColIdx) (now i : Nat)
    (r : List (List Char)) (t d : String) (lat lng : ℚ) (c : String)
    (hv : validateRow idx i r = Except.ok (t, d, lat, lng, c))
    (hd : isDuplicate pre lat lng) :
    processRow pre idx now i r =
      .err ("Row " ++ toString (i + 2) ++ ": duplicate marker skipped") := by
  unfold processRow
  rw [hv]
  show (if isDuplicate pre lat lng then _ else _) = _
  rw [if_pos hd]

theorem processRows_nil (pre : List Marker) (idx : ColIdx) (now i : Nat) :
    processRows pre idx now i [] = [] := rfl

theorem processRows_cons (pre : List Marker) (idx : ColIdx) (now i : Nat)
    (r : List (List Char)) (rs : List (List (List Char))) :
    processRows pre idx now i (r :: rs) =
      processRow pre idx now i r :: processRows pre idx now (i + 1) rs := rfl

theorem okMarkers_cons_ok (m : Marker) (rs : List RowResult) :
    okMarkers (RowResult.ok m :: rs) = m :: okMarkers rs := rfl

theorem okMarkers_cons_err (e : String) (rs : List RowResult) :
    okMarkers (RowResult.err e :: rs) = okMarkers rs := rfl

theorem rowErrors_cons_ok (m : Marker) (rs : List RowResult) :
    rowErrors (RowResult.ok m :: rs) = rowErrors rs := rfl

theorem rowErrors_cons_err (e : String) (rs : List RowResult) :
    rowErrors (RowResult.err e :: rs) = e :: rowErrors rs := rfl

/-- Unfolding of `importCSV` once the parse and the mandatory column
searches are known. -/
theorem importCSV_eq (markers : List Marker) (now : Nat) (text : String)
    (headers : List (List Char)) (rows : List (List (List Char)))
    (hp : parseCSV text.data = (headers, rows)) (la lo : Nat)
    (hla : headers.findIdx? (fun h =>
      lowerCL h == "latitude".data || lowerCL h == "lat".data) = some la)
    (hlo : headers.findIdx? (fun h =>
      lowerCL h == "longitude".data || lowerCL h == "lon".data ||
      lowerCL h == "lng".data || lowerCL h == "long".data) = some lo) :
    importCSV markers now text =
      some (markers ++ okMarkers (processRows markers
          ⟨headers.findIdx? (fun h => lowerCL h == "title".data),
           headers.findIdx? (fun h =>
             lowerCL h == "description".data || lowerCL h == "desc".data),
           la, lo,
           headers.findIdx? (fun h =>
             lowerCL h == "category".data || lowerCL h == "cat".data)⟩ now 0 rows),
        rowErrors (processRows markers
          ⟨headers.findIdx? (fun h => lowerCL h == "title".data),
           headers.findIdx? (fun h =>
             lowerCL h == "description".data || lowerCL h == "desc".data),
           la, lo,
           headers.findIdx? (fun h =>
             lowerCL h == "category".data || lowerCL h == "cat".data)⟩ now 0 rows),
        (okMarkers (processRows markers
          ⟨headers.findIdx? (fun h => lowerCL h == "title".data),
           headers.findIdx? (fun h =>
             lowerCL h == "description".data || lowerCL h == "desc".data),
           la, lo,
           headers.findIdx? (fun h =>
             lowerCL h == "category".data || lowerCL h == "cat".data)⟩ now 0 rows)).length) := by
  simp only [importCSV]
  rw [hp]
  simp only [hla, hlo]

/-- A nonzero denominator test for small literals, convenient for
`DecimalRep` obligations. -/
theorem decimalRep_of_den_one (q : ℚ) (h : q.den = 1) : DecimalRep q := by
  unfold DecimalRep
  rw [h]
  exact one_dvd _

theorem validateRow_1020 (i : Nat) : validateRow ⟨none, none, 0, 1, none⟩ i
    [("10").data, ("20").data] = Except.ok ("Imported Marker", "", (10 : ℚ), 20, "General") := by
  have h10 : jsNumC (("10").data) = some ((10 : ℚ)) := by
    rw [show ("10").data = natDigits 10 from by decide]
    simpa using jsNumC_natDigits 10
  have h20 : jsNumC (("20").data) = some ((20 : ℚ)) := by
    rw [show ("20").data = natDigits 20 from by decide]
    simpa using jsNumC_natDigits 20
  simp only [validateRow]
  norm_num [h10, h20]
  rintro (h | h) <;> simp at h

/- ==================== C1: in-batch duplicate detection ==================== -/

set_option maxRecDepth 100000 in
/-- C1 counterexample: importing a file with two identical coordinate
rows into an empty store commits BOTH markers with no duplicate error,
yet the two committed markers are 0 m (≤ 5 m) apart — the in-batch
duplicate check the claim describes does not exist. -/
theorem import_batch_duplicate_cex :
    importCSV [] 0 "Latitude,Longitude\n10,20\n10,20" =
      some ([⟨0, (10, 20), "Imported Marker", "", "General", none⟩,
             ⟨1, (10, 20), "Imported Marker", "", "General", none⟩], [], 2) ∧
    haversineDist ((10 : ℚ) : ℝ) ((20 : ℚ) : ℝ) ((10 : ℚ) : ℝ) ((20 : ℚ) : ℝ) ≤ 5 := by
  constructor
  · have hp : parseCSV ("Latitude,Longitude\n10,20\n10,20").data =
        ([("Latitude").data, ("Longitude").data],
         [[("10").data, ("20").data], [("10").data, ("20").data]]) := by decide
    have hla : [("Latitude").data, ("Longitude").data].findIdx? (fun h =>
        lowerCL h == "latitude".data || lowerCL h == "lat".data) = some 0 := by decide
    have hlo : [("Latitude").data, ("Longitude").data].findIdx? (fun h =>
        lowerCL h == "longitude".data || lowerCL h == "lon".data ||
        lowerCL h == "lng".data || lowerCL h == "long".data) = some 1 := by decide
    have ht : [("Latitude").data, ("Longitude").data].findIdx? (fun h =>
        lowerCL h == "title".data) = none := by decide
    have hde : [("Latitude").data, ("Longitude").data].findIdx? (fun h =>
        lowerCL h == "description".data || lowerCL h == "desc".data) = none := by decide
    have hca : [("Latitude").data, ("Longitude").data].findIdx? (fun h =>
        lowerCL h == "category".data || lowerCL h == "cat".data) = none := by decide
    rw [importCSV_eq [] 0 _ _ _ hp 0 1 hla hlo, ht, hde, hca]
    rw [processRows_cons, processRows_cons, processRows_nil]
    rw [processRow_ok_not_dup [] _ 0 0 _ _ _ _ _ _ (validateRow_1020 0) (isDuplicate_nil 10 20)]
    rw [processRow_ok_not_dup [] _ 0 1 _ _ _ _ _ _ (validateRow_1020 1) (isDuplicate_nil 10 20)]
    rw [okMarkers_cons_ok, okMarkers_cons_ok]
    simp [okMarkers, rowErrors]
  · rw [haversineDist_self]
    norm_num

/-- C1 amended: during import a row with present, valid coordinates is
rejected as a duplicate exactly when it is within 5 m of a marker that
existed BEFORE the import; rows accepted earlier in the same batch are
never consulted (each row outcome depends only on the pre-import store),
so one import can commit markers within 5 m of each other. -/
theorem import_duplicate_row_spec (pre : List Marker) (idx : ColIdx) (now i : Nat)
    (r : List (List Char)) (t d : String) (lat lng : ℚ) (c : String)
    (hv : validateRow idx i r = Except.ok (t, d, lat, lng, c)) :
    (processRow pre idx now i r =
        .err ("Row " ++ toString (i + 2) ++ ": duplicate marker skipped") ↔
      isDuplicate pre lat lng) ∧
    (¬ isDuplicate pre lat lng → processRow pre idx now i r =
      .ok { id := now + i, position := (lat, lng), title := t, description := d,
            category := c, image := none }) := by
  refine ⟨⟨?_, ?_⟩, ?_⟩
  · intro h
    by_contra hnd
    rw [processRow_ok_not_dup pre idx now i r t d lat lng c hv hnd] at h
    cases h
  · intro hd
    exact processRow_ok_dup pre idx now i r t d lat lng c hv hd
  · intro hnd
    exact processRow_ok_not_dup pre idx now i r t d lat lng c hv hnd

set_option maxRecDepth 100000 in
/-- Witness for C1's amended behaviour: the same row against a store
that already holds a marker at the same position is rejected. -/
theorem import_duplicate_row_spec_witness :
    processRow [⟨1, (10, 20), "t", "", "General", none⟩] ⟨none, none, 0, 1, none⟩ 0 0
      [("10").data, ("20").data] = .err "Row 2: duplicate marker skipped" := by
  have h := (import_duplicate_row_spec [⟨1, (10, 20), "t", "", "General", none⟩]
    ⟨none, none, 0, 1, none⟩ 0 0 [("10").data, ("20").data] _ _ _ _ _
    (validateRow_1020 0)).1.2
    (isDuplicate_of_mem _ ⟨1, (10, 20), "t", "", "General", none⟩ (by simp))
  rw [h]
  decide

/- ==================== C5: duplicate rejection on add ==================== -/

theorem handleAddMarker_success (now : Nat) (ms : List Marker) (lat lng : ℚ)
    (h1 : ¬ (lat < -90 ∨ lat > 90 ∨ lng < -180 ∨ lng > 180))
    (hnd : ¬ isDuplicate ms lat lng) :
    handleAddMarker now ms lat lng = (.added, ms ++
      [{ id := now, position := (lat, lng), title := "New Marker", description := "",
         category := "General", image := none }]) := by
  unfold handleAddMarker
  rw [if_neg h1, if_neg hnd]

/-- C5 amended: for an IN-RANGE candidate within 5 m of an existing
marker, `handleAddMarker` fails with the duplicate rejection and returns
the store unchanged; an out-of-range candidate fails with
`invalidCoordinate` instead, even when within 5 m of a marker (the range
check runs first). -/
theorem handleAddMarker_duplicate (now : Nat) (ms : List Marker) (lat lng : ℚ)
    (h1 : -90 ≤ lat) (h2 : lat ≤ 90) (h3 : -180 ≤ lng) (h4 : lng ≤ 180)
    (hd : isDuplicate ms lat lng) :
    handleAddMarker now ms lat lng = (AddOutcome.duplicateRejected, ms) := by
  unfold handleAddMarker
  rw [if_neg, if_pos hd]
  intro hcon
  rcases hcon with h | h | h | h <;> linarith

/-- Witness for C5 amended: a click at the exact position of a stored
marker is rejected and the store survives unchanged. -/
theorem handleAddMarker_duplicate_witness :
    handleAddMarker 5 [⟨1, (10, 20), "t", "", "General", none⟩] 10 20 =
      (AddOutcome.duplicateRejected, [⟨1, (10, 20), "t", "", "General", none⟩]) :=
  handleAddMarker_duplicate 5 [⟨1, (10, 20), "t", "", "General", none⟩] 10 20
    (by norm_num) (by norm_num) (by norm_num) (by norm_num)
    (isDuplicate_of_mem _ ⟨1, (10, 20), "t", "", "General", none⟩ (by simp))

/-- C5 counterexample: the candidate (90.00001, 0) is within 5 m of the
stored marker (90, 0) — the haversine distance is about 1.1 m — yet
`handleAddMarker` fails with `invalidCoordinate`, not the duplicate
rejection, because the range check runs first. -/
theorem handleAddMarker_duplicate_claim_cex :
    isDuplicate [⟨1, (90, 0), "t", "", "General", none⟩] (9000001 / 100000) 0 ∧
    (handleAddMarker 5 [⟨1, (90, 0), "t", "", "General", none⟩] (9000001 / 100000) 0).1 =
      AddOutcome.invalidCoordinate ∧
    AddOutcome.invalidCoordinate ≠ AddOutcome.duplicateRejected := by
  refine ⟨?_, ?_, by decide⟩
  · left
    show haversineDist (((9000001 / 100000 : ℚ) : ℝ)) (((0 : ℚ) : ℝ)) (((90 : ℚ) : ℝ))
      (((0 : ℚ) : ℝ)) ≤ 5
    rw [show (((9000001 / 100000 : ℚ) : ℝ)) = ((9000001 : ℝ) / 100000) by push_cast; ring,
      show (((0 : ℚ) : ℝ)) = (0 : ℝ) by norm_num,
      show (((90 : ℚ) : ℝ)) = (90 : ℝ) by norm_num]
    exact haversineDist_near_pole
  · unfold handleAddMarker
    rw [if_pos (Or.inr (Or.inl (by norm_num)))]

/- ==================== C6: id uniqueness ==================== -/

/-- C6 amended: the markers committed by a single CSV import have
pairwise distinct ids (`Date.now() + rowIndex` with distinct row
indices), and a successful click add appends one marker whose id is
exactly the `Date.now()` value — so ids are timestamp-derived, and two
successful creations that share a millisecond can collide (see the
counterexample). -/
theorem creation_id_spec :
    (∀ (pre : List Marker) (idx : ColIdx) (now : Nat)
        (rows : List (List (List Char))) (i : Nat),
      ((okMarkers (processRows pre idx now i rows)).map Marker.id).Nodup) ∧
    (∀ (now : Nat) (ms : List Marker) (lat lng : ℚ) (out : AddOutcome)
        (ms2 : List Marker),
      handleAddMarker now ms lat lng = (out, ms2) → out = .added →
      ms2 = ms ++ [⟨now, (lat, lng), "New Marker", "", "General", none⟩]) := by
  constructor
  · intro pre idx now rows i
    exact processRows_ids_nodup pre idx now rows i
  · intro now ms lat lng out ms2 heq hadded
    unfold handleAddMarker at heq
    by_cases h1 : lat < -90 ∨ lat > 90 ∨ lng < -180 ∨ lng > 180
    · rw [if_pos h1] at heq
      injection heq with ho hms
      rw [← ho] at hadded
      cases hadded
    · rw [if_neg h1] at heq
      by_cases h2 : isDuplicate ms lat lng
      · rw [if_pos h2] at heq
        injection heq with ho hms
        rw [← ho] at hadded
        cases hadded
      · rw [if_neg h2] at heq
        injection heq with ho hms
        exact hms.symm

/-- Witness for C6 amended: a successful first click at time 7 creates
the single marker with id 7. -/
theorem creation_id_spec_witness :
    (handleAddMarker 7 ([] : List Marker) 90 0).2 =
      [⟨7, ((90 : ℚ), (0 : ℚ)), "New Marker", "", "General", none⟩] := by
  have hrange : ¬ ((90 : ℚ) < -90 ∨ (90 : ℚ) > 90 ∨ (0 : ℚ) < -180 ∨ (0 : ℚ) > 180) := by
    intro hcon
    rcases hcon with h | h | h | h <;> norm_num at h
  have hs := handleAddMarker_success 7 [] 90 0 hrange (isDuplicate_nil 90 0)
  have h := creation_id_spec.2 7 [] 90 0 AddOutcome.added
    ((handleAddMarker 7 ([] : List Marker) 90 0).2) (by rw [hs]) rfl
  simpa using h

/-- C6 counterexample: two map clicks during the same millisecond (both
see `Date.now() = 7`) at far-apart valid positions both succeed, and the
resulting reachable store holds two markers with the SAME id 7. -/
theorem reachable_id_collision_cex :
    runOps [.click 7 90 0, .click 7 0 0] =
      [⟨7, ((90 : ℚ), (0 : ℚ)), "New Marker", "", "General", none⟩,
       ⟨7, ((0 : ℚ), (0 : ℚ)), "New Marker", "", "General", none⟩] ∧
    ¬ ((runOps [.click 7 90 0, .click 7 0 0]).map Marker.id).Nodup := by
  have hrange1 : ¬ ((90 : ℚ) < -90 ∨ (90 : ℚ) > 90 ∨ (0 : ℚ) < -180 ∨ (0 : ℚ) > 180) := by
    intro hcon
    rcases hcon with h | h | h | h <;> norm_num at h
  have hrange2 : ¬ ((0 : ℚ) < -90 ∨ (0 : ℚ) > 90 ∨ (0 : ℚ) < -180 ∨ (0 : ℚ) > 180) := by
    intro hcon
    rcases hcon with h | h | h | h <;> norm_num at h
  have h1 : applyOp [] (MapOp.click 7 90 0) =
      [⟨7, ((90 : ℚ), (0 : ℚ)), "New Marker", "", "General", none⟩] := by
    show (handleAddMarker 7 [] 90 0).2 = _
    rw [handleAddMarker_success 7 [] 90 0 hrange1 (isDuplicate_nil 90 0)]
    rfl
  have hnd2 : ¬ isDuplicate [⟨7, ((90 : ℚ), (0 : ℚ)), "New Marker", "", "General", none⟩]
      0 0 := by
    intro h
    rcases h with h | h
    · rw [show (((0 : ℚ) : ℝ)) = (0 : ℝ) by norm_num,
        show (((90 : ℚ) : ℝ)) = (90 : ℝ) by norm_num] at h
      rw [haversineDist_qturn] at h
      nlinarith [Real.pi_gt_three]
    · exact h
  have h2 : applyOp [⟨7, ((90 : ℚ), (0 : ℚ)), "New Marker", "", "General", none⟩]
      (MapOp.click 7 0 0) =
      [⟨7, ((90 : ℚ), (0 : ℚ)), "New Marker", "", "General", none⟩,
       ⟨7, ((0 : ℚ), (0 : ℚ)), "New Marker", "", "General", none⟩] := by
    show (handleAddMarker 7 _ 0 0).2 = _
    rw [handleAddMarker_success 7 _ 0 0 hrange2 hnd2]
    rfl
  have hrun : runOps [.click 7 90 0, .click 7 0 0] =
      [⟨7, ((90 : ℚ), (0 : ℚ)), "New Marker", "", "General", none⟩,
       ⟨7, ((0 : ℚ), (0 : ℚ)), "New Marker", "", "General", none⟩] := by
    show applyOp (applyOp [] (MapOp.click 7 90 0)) (MapOp.click 7 0 0) = _
    rw [h1, h2]
  refine ⟨hrun, ?_⟩
  rw [hrun]
  decide

/- ==================== C8: row errors never abort the batch ==================== -/

theorem processRows_get? (pre : List Marker) (idx : ColIdx) (now : Nat) :
    ∀ (rs : List (List (List Char))) (i j : Nat),
      (processRows pre idx now i rs).get? j =
        (rs.get? j).map (fun r => processRow pre idx now (i + j) r) := by
  intro rs
  induction rs with
  | nil => intro i j; simp [processRows]
  | cons r rest ih =>
    intro i j
    cases j with
    | zero => simp [processRows_cons]
    | succ j2 =>
      show (processRow pre idx now i r ::
        processRows pre idx now (i + 1) rest).get? (j2 + 1) = _
      rw [List.get?_cons_succ, ih (i + 1) j2]
      have hx : i + 1 + j2 = i + (j2 + 1) := by omega
      rw [hx]
      rfl

/-- C8: a row whose latitude does not parse as a finite number, or
parses out of range, yields exactly one row error and no marker; every
row that does produce a marker ends up committed in the final store; and
the batch never aborts once the latitude/longitude columns are found. -/
theorem import_row_error_spec :
    (∀ (idx : ColIdx) (i : Nat) (r : List (List Char)),
      (jsNumC (r.getD idx.lat []) = none ∨
        (∃ q, jsNumC (r.getD idx.lat []) = some q ∧ (q < -90 ∨ q > 90))) →
      ∃ e, validateRow idx i r = Except.error e ∧
        ∀ (pre : List Marker) (now : Nat), processRow pre idx now i r = .err e) ∧
    (∀ (pre : List Marker) (idx : ColIdx) (now : Nat)
        (rows : List (List (List Char))) (j : Nat) (r : List (List Char)) (m : Marker),
      rows.get? j = some r → processRow pre idx now j r = .ok m →
      m ∈ pre ++ okMarkers (processRows pre idx now 0 rows)) ∧
    (∀ (markers : List Marker) (now : Nat) (text : String)
        (headers : List (List Char)) (rows : List (List (List Char))) (la lo : Nat),
      parseCSV text.data = (headers, rows) →
      headers.findIdx? (fun h =>
        lowerCL h == "latitude".data || lowerCL h == "lat".data) = some la →
      headers.findIdx? (fun h =>
        lowerCL h == "longitude".data || lowerCL h == "lon".data ||
        lowerCL h == "lng".data || lowerCL h == "long".data) = some lo →
      ∃ res, importCSV markers now text = some res) := by
  refine ⟨?_, ?_, ?_⟩
  · intro idx i r hbad
    by_cases hmiss : r.getD idx.lat [] = [] ∨ r.getD idx.lng [] = []
    · refine ⟨"Row " ++ toString (i + 2) ++ ": missing coordinates", ?_⟩
      have hval : validateRow idx i r =
          Except.error ("Row " ++ toString (i + 2) ++ ": missing coordinates") := by
        simp only [validateRow]
        rw [if_pos hmiss]
      exact ⟨hval, fun pre now => processRow_err pre idx now i r _ hval⟩
    · refine ⟨"Row " ++ toString (i + 2) ++ ": invalid lat/lng (" ++
        String.mk (r.getD idx.lat []) ++ ", " ++ String.mk (r.getD idx.lng []) ++ ")", ?_⟩
      have hval : validateRow idx i r = Except.error ("Row " ++ toString (i + 2) ++
          ": invalid lat/lng (" ++ String.mk (r.getD idx.lat []) ++ ", " ++
          String.mk (r.getD idx.lng []) ++ ")") := by
        simp only [validateRow]
        rw [if_neg hmiss]
        rcases hbad with hnone | ⟨q, hq, hrange⟩
        · rw [hnone]
        · rw [hq]
          cases hl : jsNumC (r.getD idx.lng []) with
          | none => rfl
          | some p =>
            show (if q < -90 ∨ q > 90 ∨ p < -180 ∨ p > 180 then _ else _) = _
            rw [if_pos]
            rcases hrange with h | h
            · exact Or.inl h
            · exact Or.inr (Or.inl h)
      exact ⟨hval, fun pre now => processRow_err pre idx now i r _ hval⟩
  · intro pre idx now rows j r m hr hok
    have hg := processRows_get? pre idx now rows 0 j
    rw [hr] at hg
    have hz : (0 : Nat) + j = j := by omega
    rw [hz] at hg
    simp only [Option.map_some'] at hg
    rw [hok] at hg
    exact List.mem_append.mpr (Or.inr ((okMarkers_mem_iff _ _).mpr (List.get?_mem hg)))
  · intro markers now text headers rows la lo hp hla hlo
    exact ⟨_, importCSV_eq markers now text headers rows hp la lo hla hlo⟩

/-- Witness for C8 at a concrete bad row: latitude "abc" does not parse,
so the row is rejected with one error message. -/
theorem import_row_error_spec_witness :
    ∃ e, validateRow ⟨none, none, 0, 1, none⟩ 0 [("abc").data, ("20").data] =
        Except.error e ∧
      ∀ (pre : List Marker) (now : Nat),
        processRow pre ⟨none, none, 0, 1, none⟩ now 0 [("abc").data, ("20").data] =
          .err e :=
  import_row_error_spec.1 ⟨none, none, 0, 1, none⟩ 0 [("abc").data, ("20").data]
    (Or.inl (by decide))

/- ==================== C9: import default title ==================== -/

theorem validateRow_hello (i : Nat) : validateRow ⟨some 0, some 1, 2, 3, none⟩ i
    [[], ("hello").data, ("10").data, ("20").data] =
    Except.ok ("Imported Marker", "hello", (10 : ℚ), 20, "General") := by
  have h10 : jsNumC (("10").data) = some ((10 : ℚ)) := by
    rw [show ("10").data = natDigits 10 from by decide]
    simpa using jsNumC_natDigits 10
  have h20 : jsNumC (("20").data) = some ((20 : ℚ)) := by
    rw [show ("20").data = natDigits 20 from by decide]
    simpa using jsNumC_natDigits 20
  simp only [validateRow]
  norm_num [h10, h20]
  rintro (h | h) <;> simp at h

set_option maxRecDepth 100000 in
/-- C9 counterexample: a row with an EMPTY title but a nonempty
description gets the default title "Imported Marker" yet keeps its
description "hello" — the claim's "empty description" does not follow
from an empty title. -/
theorem import_title_desc_cex :
    importCSV [] 0 "Title,Description,Latitude,Longitude\n,hello,10,20" =
      some ([⟨0, ((10 : ℚ), (20 : ℚ)), "Imported Marker", "hello", "General", none⟩],
        [], 1) ∧
    ("hello" : String) ≠ "" := by
  constructor
  · have hp : parseCSV ("Title,Description,Latitude,Longitude\n,hello,10,20").data =
        ([("Title").data, ("Description").data, ("Latitude").data, ("Longitude").data],
         [[[], ("hello").data, ("10").data, ("20").data]]) := by decide
    have hla : [("Title").data, ("Description").data, ("Latitude").data,
        ("Longitude").data].findIdx? (fun h =>
        lowerCL h == "latitude".data || lowerCL h == "lat".data) = some 2 := by decide
    have hlo : [("Title").data, ("Description").data, ("Latitude").data,
        ("Longitude").data].findIdx? (fun h =>
        lowerCL h == "longitude".data || lowerCL h == "lon".data ||
        lowerCL h == "lng".data || lowerCL h == "long".data) = some 3 := by decide
    have ht : [("Title").data, ("Description").data, ("Latitude").data,
        ("Longitude").data].findIdx? (fun h => lowerCL h == "title".data) =
        some 0 := by decide
    have hde : [("Title").data, ("Description").data, ("Latitude").data,
        ("Longitude").data].findIdx? (fun h =>
        lowerCL h == "description".data || lowerCL h == "desc".data) = some 1 := by decide
    have hca : [("Title").data, ("Description").data, ("Latitude").data,
        ("Longitude").data].findIdx? (fun h =>
        lowerCL h == "category".data || lowerCL h == "cat".data) = none := by decide
    rw [importCSV_eq [] 0 _ _ _ hp 2 3 hla hlo, ht, hde, hca]
    rw [processRows_cons, processRows_nil]
    rw [processRow_ok_not_dup [] _ 0 0 _ _ _ _ _ _ (validateRow_hello 0)
      (isDuplicate_nil 10 20)]
    simp [okMarkers, rowErrors]
  · decide

/-- C9 amended: an import row with present, valid, non-duplicate
coordinates whose title AND description fields are empty or missing
produces the defaults title "Imported Marker" and description "" — a
different default title from the "New Marker" a successful map-click add
appends (a row with an empty title but nonempty description keeps its
description). -/
theorem import_default_title_spec (idx : ColIdx) (i : Nat) (r : List (List Char))
    (t d : String) (lat lng : ℚ) (c : String)
    (hv : validateRow idx i r = Except.ok (t, d, lat, lng, c))
    (htitle : (match idx.title with | none => ([] : List Char) | some j => r.getD j []) = [])
    (hdesc : (match idx.desc with | none => ([] : List Char) | some j => r.getD j []) = []) :
    t = "Imported Marker" ∧ d = "" ∧ ("Imported Marker" : String) ≠ "New Marker" ∧
    (∀ (now : Nat) (ms : List Marker) (la2 ln2 : ℚ),
      ¬ (la2 < -90 ∨ la2 > 90 ∨ ln2 < -180 ∨ ln2 > 180) → ¬ isDuplicate ms la2 ln2 →
      ∃ m2 : Marker, (handleAddMarker now ms la2 ln2).2 = ms ++ [m2] ∧
        m2.title = "New Marker") := by
  have key : t = "Imported Marker" ∧ d = "" := by
    simp only [validateRow] at hv
    rw [htitle, hdesc] at hv
    by_cases hmiss : r.getD idx.lat [] = [] ∨ r.getD idx.lng [] = []
    · rw [if_pos hmiss] at hv
      cases hv
    · rw [if_neg hmiss] at hv
      cases hla : jsNumC (r.getD idx.lat []) with
      | none =>
        rw [hla] at hv
        cases hv
      | some q =>
        cases hlo : jsNumC (r.getD idx.lng []) with
        | none =>
          rw [hla, hlo] at hv
          cases hv
        | some p =>
          rw [hla, hlo] at hv
          simp only [] at hv
          by_cases hrange : q < -90 ∨ q > 90 ∨ p < -180 ∨ p > 180
          · rw [if_pos hrange] at hv
            cases hv
          · rw [if_neg hrange] at hv
            simp at hv
            exact ⟨hv.1.symm, hv.2.1.symm⟩
  refine ⟨key.1, key.2, by decide, ?_⟩
  intro now ms la2 ln2 hr hnd
  exact ⟨⟨now, (la2, ln2), "New Marker", "", "General", none⟩,
    by rw [handleAddMarker_success now ms la2 ln2 hr hnd], rfl⟩

/-- Witness for C9 amended at a concrete coordinate-only row. -/
theorem import_default_title_spec_witness :
    ("Imported Marker" : String) ≠ "New Marker" :=
  (import_default_title_spec ⟨none, none, 0, 1, none⟩ 0 [("10").data, ("20").data]
    _ _ _ _ _ (validateRow_1020 0) rfl rfl).2.2.1

/- ==================== Lemmas: row scanner on clean fields ==================== -/

theorem goRowGo_congr (f1 : Nat) : ∀ (f2 : Nat) (l : List Char) (q : Bool) (cur : List Char),
    l.length < f1 → l.length < f2 → goRowGo f1 l q cur = goRowGo f2 l q cur := by
  induction f1 with
  | zero => intro f2 l q cur h1 _; omega
  | succ f ih =>
    intro f2 l q cur h1 h2
    cases f2 with
    | zero => omega
    | succ g =>
      cases l with
      | nil => rfl
      | cons c rest =>
        simp only [List.length_cons] at h1 h2
        show (if c = '"' then _ else _) = (if c = '"' then _ else _)
        by_cases hc : c = '"'
        · rw [if_pos hc, if_pos hc]
          cases rest with
          | nil => rfl
          | cons c2 rest2 =>
            simp only []
            by_cases hc2 : c2 = '"'
            · rw [if_pos hc2, if_pos hc2]
              exact ih g rest2 q ('"' :: cur) (by simp at h1 ⊢; omega)
                (by simp at h2 ⊢; omega)
            · rw [if_neg hc2, if_neg hc2]
              exact ih g (c2 :: rest2) (!q) cur (by simp at h1 ⊢; omega)
                (by simp at h2 ⊢; omega)
        · rw [if_neg hc, if_neg hc]
          by_cases hcm : c = ',' ∧ q = false
          · rw [if_pos hcm, if_pos hcm]
            rw [ih g rest false [] (by omega) (by omega)]
          · rw [if_neg hcm, if_neg hcm]
            exact ih g rest q (c :: cur) (by omega) (by omega)

theorem goRow_nil (q : Bool) (cur : List Char) : goRow [] q cur = [cur.reverse] := rfl

/-- The intended recursion of `goRow` (its fuel never runs out). -/
theorem goRow_cons (c : Char) (rest : List Char) (q : Bool) (cur : List Char) :
    goRow (c :: rest) q cur =
      if c = '"' then
        (match rest with
         | c2 :: rest2 =>
           if c2 = '"' then goRow rest2 q ('"' :: cur) else goRow rest (!q) cur
         | [] => [cur.reverse])
      else if c = ',' ∧ q = false then cur.reverse :: goRow rest false []
      else goRow rest q (c :: cur) := by
  show (if c = '"' then
      (match rest with
       | c2 :: rest2 =>
         if c2 = '"' then goRowGo (rest.length + 1) rest2 q ('"' :: cur)
         else goRowGo (rest.length + 1) rest (!q) cur
       | [] => [cur.reverse])
    else if c = ',' ∧ q = false then cur.reverse :: goRowGo (rest.length + 1) rest false []
    else goRowGo (rest.length + 1) rest q (c :: cur)) = _
  by_cases hc : c = '"'
  · rw [if_pos hc, if_pos hc]
    cases rest with
    | nil => rfl
    | cons c2 rest2 =>
      simp only []
      by_cases hc2 : c2 = '"'
      · rw [if_pos hc2, if_pos hc2]
        exact goRowGo_congr ((c2 :: rest2).length + 1) (rest2.length + 1) rest2 q ('"' :: cur)
          (by simp only [List.length_cons]; omega) (by omega)
      · rw [if_neg hc2, if_neg hc2]; rfl
  · rw [if_neg hc, if_neg hc]
    by_cases hcm : c = ',' ∧ q = false
    · rw [if_pos hcm, if_pos hcm]; rfl
    · rw [if_neg hcm, if_neg hcm]; rfl

/-- Field content free of quotes (and of commas when outside quotes) is
accumulated verbatim. -/
theorem goRow_content (T : List Char) : ∀ (q : Bool) (cur rest : List Char),
    (∀ c ∈ T, c ≠ '"' ∧ (q = true ∨ c ≠ ',')) →
    goRow (T ++ rest) q cur = goRow rest q (T.reverse ++ cur) := by
  induction T with
  | nil => intro q cur rest _; simp
  | cons c t ih =>
    intro q cur rest h
    obtain ⟨hq, hcm⟩ := h c (by simp)
    show goRow (c :: (t ++ rest)) q cur = _
    rw [goRow_cons, if_neg hq]
    have hnot : ¬ (c = ',' ∧ q = false) := by
      rintro ⟨hc, hqf⟩
      rcases hcm with h2 | h2
      · rw [h2] at hqf; cases hqf
      · exact h2 hc
    rw [if_neg hnot]
    rw [ih q (c :: cur) rest (fun c2 hc2 => h c2 (by simp [hc2]))]
    simp

theorem goRow_close_comma (rest cur : List Char) :
    goRow ('"' :: ',' :: rest) true cur = cur.reverse :: goRow rest false [] := by
  rw [goRow_cons]
  simp only [reduceIte]
  rw [goRow_cons]
  simp

theorem goRow_close_end (cur : List Char) :
    goRow ['"'] true cur = [cur.reverse] := by
  rw [goRow_cons]
  simp

theorem goRow_open (c : Char) (t rest cur : List Char) (hc : c ≠ '"') :
    goRow ('"' :: (c :: t) ++ rest) false cur = goRow ((c :: t) ++ rest) true cur := by
  show goRow ('"' :: ((c :: t) ++ rest)) false cur = _
  rw [goRow_cons]
  simp [hc]

/-- A quoted quote-free nonempty field followed by a comma. -/
theorem goRow_quoted_field (T rest : List Char) (hne : T ≠ [])
    (hq : ∀ c ∈ T, c ≠ '"') :
    goRow ('"' :: (T ++ '"' :: ',' :: rest)) false [] = T :: goRow rest false [] := by
  obtain ⟨c, t, hct⟩ := List.exists_cons_of_ne_nil hne
  subst hct
  have h1 : goRow ('"' :: ((c :: t) ++ '"' :: ',' :: rest)) false [] =
      goRow ((c :: t) ++ '"' :: ',' :: rest) true [] :=
    goRow_open c t ('"' :: ',' :: rest) [] (hq c (by simp))
  rw [h1, goRow_content (c :: t) true [] ('"' :: ',' :: rest)
    (fun c2 hc2 => ⟨hq c2 hc2, Or.inl rfl⟩)]
  rw [goRow_close_comma]
  simp

/-- A quoted quote-free nonempty LAST field (closing quote at the end of
the line). -/
theorem goRow_quoted_last (T : List Char) (hne : T ≠ [])
    (hq : ∀ c ∈ T, c ≠ '"') :
    goRow ('"' :: (T ++ ['"'])) false [] = [T] := by
  obtain ⟨c, t, hct⟩ := List.exists_cons_of_ne_nil hne
  subst hct
  have h1 : goRow ('"' :: ((c :: t) ++ ['"'])) false [] =
      goRow ((c :: t) ++ ['"']) true [] :=
    goRow_open c t ['"'] [] (hq c (by simp))
  rw [h1, goRow_content (c :: t) true [] ['"']
    (fun c2 hc2 => ⟨hq c2 hc2, Or.inl rfl⟩)]
  rw [goRow_close_end]
  simp

/-- An unquoted field (no quotes, no commas) followed by a comma. -/
theorem goRow_raw_field (N rest : List Char)
    (h : ∀ c ∈ N, c ≠ '"' ∧ c ≠ ',') :
    goRow (N ++ ',' :: rest) false [] = N :: goRow rest false [] := by
  rw [goRow_content N false [] (',' :: rest) (fun c hc => ⟨(h c hc).1, Or.inr (h c hc).2⟩)]
  rw [goRow_cons]
  simp

/-- An unquoted LAST field. -/
theorem goRow_raw_last (N : List Char) (h : ∀ c ∈ N, c ≠ '"' ∧ c ≠ ',') :
    goRow N false [] = [N] := by
  have h2 := goRow_content N false [] [] (fun c hc => ⟨(h c hc).1, Or.inr (h c hc).2⟩)
  rw [List.append_nil] at h2
  rw [h2, goRow_nil]
  simp

/- ==================== Lemmas: line splitting and trimming ==================== -/

theorem stripCRrev_no_cr (a : List Char) (h : ∀ c ∈ a, c ≠ '\r') :
    stripCRrev a = a.reverse := by
  cases a with
  | nil => rfl
  | cons c r =>
    show (if c = '\r' then r.reverse else (c :: r).reverse) = (c :: r).reverse
    rw [if_neg (h c (by simp))]

theorem slAux_no_newline (l : List Char) : ∀ acc : List Char,
    (∀ c ∈ l, c ≠ '\n') → slAux l acc = [acc.reverse ++ l] := by
  induction l with
  | nil => intro acc _; simp [slAux]
  | cons c r ih =>
    intro acc h
    unfold slAux
    rw [if_neg (h c (by simp))]
    rw [ih (c :: acc) (fun x hx => h x (by simp [hx]))]
    simp

theorem slAux_cons (c : Char) (rest acc : List Char) :
    slAux (c :: rest) acc =
      if c = '\n' then stripCRrev acc :: slAux rest [] else slAux rest (c :: acc) := rfl

theorem slAux_line (l1 : List Char) : ∀ (l2 acc : List Char),
    (∀ c ∈ l1, c ≠ '\n' ∧ c ≠ '\r') → (∀ c ∈ acc, c ≠ '\r') →
    slAux (l1 ++ '\n' :: l2) acc = (acc.reverse ++ l1) :: slAux l2 [] := by
  induction l1 with
  | nil =>
    intro l2 acc _ hacc
    show slAux ('\n' :: l2) acc = _
    rw [slAux_cons, if_pos rfl, stripCRrev_no_cr acc hacc]
    simp
  | cons c r ih =>
    intro l2 acc h hacc
    show slAux (c :: (r ++ '\n' :: l2)) acc = _
    rw [slAux_cons, if_neg (h c (by simp)).1]
    rw [ih l2 (c :: acc) (fun x hx => h x (by simp [hx]))
      (fun x hx => by
        rcases List.mem_cons.mp hx with he | hm
        · rw [he]; exact (h c (by simp)).2
        · exact hacc x hm)]
    simp

theorem splitLines_joinNL : ∀ ls : List (List Char), ls ≠ [] →
    (∀ l ∈ ls, ∀ c ∈ l, c ≠ '\n' ∧ c ≠ '\r') → splitLines (joinNL ls) = ls := by
  intro ls
  induction ls with
  | nil => intro h _; cases h rfl
  | cons l rest ih =>
    intro _ h
    cases rest with
    | nil =>
      show splitLines (joinNL [l]) = [l]
      unfold joinNL splitLines
      rw [slAux_no_newline l [] (fun c hc => (h l (by simp) c hc).1)]
      simp
    | cons l2 rest2 =>
      show splitLines (joinNL (l :: l2 :: rest2)) = _
      have hj : joinNL (l :: l2 :: rest2) = l ++ '\n' :: joinNL (l2 :: rest2) := rfl
      unfold splitLines
      rw [hj, slAux_line l (joinNL (l2 :: rest2)) [] (h l (by simp)) (by simp)]
      have := ih (by simp) (fun x hx c hc => h x (by simp [hx]) c hc)
      unfold splitLines at this
      rw [this]
      simp

theorem dropWhile_all_false (p : Char → Bool) (l : List Char)
    (h : ∀ c ∈ l, p c = false) : l.dropWhile p = l := by
  cases l with
  | nil => rfl
  | cons c r =>
    rw [List.dropWhile_cons, if_neg (by rw [h c (by simp)]; simp)]

theorem trimCL_eq_self (l : List Char) (h : ∀ c ∈ l, isWS c = false) :
    trimCL l = l := by
  unfold trimCL
  rw [dropWhile_all_false isWS l h]
  rw [dropWhile_all_false isWS l.reverse (fun c hc => h c (List.mem_reverse.mp hc))]
  simp

theorem trimCL_cons_ne_nil (c : Char) (l : List Char) (hc : isWS c = false) :
    (trimCL (c :: l)).isEmpty = false := by
  rw [List.isEmpty_eq_false]
  unfold trimCL
  rw [List.dropWhile_cons, if_neg (by rw [hc]; simp)]
  intro hnil
  have h2 : (c :: l).reverse.dropWhile isWS = [] := by
    have := congrArg List.reverse hnil
    simpa using this
  have h3 := (List.dropWhile_eq_nil_iff).mp h2 c (by simp)
  rw [hc] at h3
  cases h3

theorem escQuotes_id (l : List Char) (h : ∀ c ∈ l, c ≠ '"') : escQuotes l = l := by
  induction l with
  | nil => rfl
  | cons c r ih =>
    unfold escQuotes
    rw [if_neg (h c (by simp)), ih (fun x hx => h x (by simp [hx]))]

theorem categories_clean : ∀ s ∈ CATEGORIES, s.data ≠ [] ∧
    ∀ c ∈ s.data, c ≠ '"' ∧ c ≠ ',' ∧ c ≠ '\n' ∧ c ≠ '\r' ∧ isWS c = false := by
  decide

theorem ratToString_chars (q : ℚ) :
    ∀ c ∈ (ratToString q).data, c.isDigit = true ∨ c = '-' ∨ c = '.' := by
  intro c hc
  unfold ratToString at hc
  rcases hd : decExp q.den with _ | k
  · rw [hd] at hc
    simp only [String.data] at hc
    left
    have he : c = '0' := by simpa using hc
    rw [he]; decide
  · rw [hd] at hc
    simp only [String.data] at hc
    rw [List.mem_append, List.mem_append] at hc
    rcases hc with (hs | hi) | ht
    · right; left
      by_cases hn : q.num < 0
      · rw [if_pos hn] at hs; simpa using hs
      · rw [if_neg hn] at hs; simp at hs
    · left; exact natDigits_all_digit _ c hi
    · by_cases hk : k = 0
      · rw [if_pos hk] at ht; simp at ht
      · rw [if_neg hk] at ht
        rcases List.mem_cons.mp ht with he | hm
        · right; right; exact he
        · rw [List.mem_append] at hm
          rcases hm with hz | hd2
          · left; rw [List.eq_of_mem_replicate hz]; decide
          · left; exact natDigits_all_digit _ c hd2

theorem ratToString_clean (q : ℚ) : ∀ c ∈ (ratToString q).data,
    c ≠ '"' ∧ c ≠ ',' ∧ c ≠ '\n' ∧ c ≠ '\r' ∧ isWS c = false := by
  intro c hc
  rcases ratToString_chars q c hc with hd | he | he
  · obtain ⟨_, _, _, _, _, h6, h7, h8, h9, _, _, _, _, _, _, _, h17⟩ := digit_char_ne c hd
    exact ⟨h6, h7, h8, h9, h17⟩
  · rw [he]; refine ⟨by decide, by decide, by decide, by decide, by decide⟩
  · rw [he]; refine ⟨by decide, by decide, by decide, by decide, by decide⟩

theorem ratToString_ne_nil (q : ℚ) : (ratToString q).data ≠ [] := by
  unfold ratToString
  rcases hd : decExp q.den with _ | k
  · simp
  · simp only [String.data]
    intro hnil
    rw [List.append_eq_nil, List.append_eq_nil] at hnil
    exact natDigits_ne_nil _ hnil.1.2

theorem rowChars_eq (m : Marker) (hT : ∀ c ∈ m.title.data, c ≠ '"')
    (hD : ∀ c ∈ m.description.data, c ≠ '"') :
    rowChars m = '"' :: (m.title.data ++ '"' :: ',' ::
      ('"' :: (m.description.data ++ '"' :: ',' ::
        ((ratToString m.position.1).data ++ ',' ::
          ((ratToString m.position.2).data ++ ',' :: m.category.data))))) := by
  unfold rowChars quoteField
  rw [escQuotes_id _ hT, escQuotes_id _ hD]
  simp

set_option maxRecDepth 100000 in
theorem rowChars_subset (m : Marker) (hT : ∀ c ∈ m.title.data, c ≠ '"')
    (hD : ∀ c ∈ m.description.data, c ≠ '"') :
    ∀ c ∈ rowChars m,
      c ∈ m.title.data ∨ c ∈ m.description.data ∨
      c ∈ (ratToString m.position.1).data ∨ c ∈ (ratToString m.position.2).data ∨
      c ∈ m.category.data ∨ c = '"' ∨ c = ',' := by
  intro c hc
  rw [rowChars_eq m hT hD] at hc
  simp only [List.mem_cons, List.mem_append] at hc
  tauto

theorem rowChars_no_break (m : Marker) (h : RoundTrippable m) :
    ∀ c ∈ rowChars m, c ≠ '\n' ∧ c ≠ '\r' := by
  obtain ⟨⟨_, htc, _⟩, ⟨_, hdc, _⟩, hcat, _⟩ := h
  intro c hc
  rcases rowChars_subset m (fun x hx => (htc x hx).1) (fun x hx => (hdc x hx).1) c hc with
    h1 | h1 | h1 | h1 | h1 | h1 | h1
  · exact ⟨(htc c h1).2.1, (htc c h1).2.2⟩
  · exact ⟨(hdc c h1).2.1, (hdc c h1).2.2⟩
  · exact ⟨(ratToString_clean _ c h1).2.2.1, (ratToString_clean _ c h1).2.2.2.1⟩
  · exact ⟨(ratToString_clean _ c h1).2.2.1, (ratToString_clean _ c h1).2.2.2.1⟩
  · exact ⟨((categories_clean _ hcat).2 c h1).2.2.1, ((categories_clean _ hcat).2 c h1).2.2.2.1⟩
  · rw [h1]; exact ⟨by decide, by decide⟩
  · rw [h1]; exact ⟨by decide, by decide⟩

theorem goRow_rowChars (m : Marker) (h : RoundTrippable m) :
    (goRow (rowChars m) false []).map trimCL = rowFields m := by
  obtain ⟨⟨htne, htc, htt⟩, ⟨hdne, hdc, hdt⟩, hcat, _⟩ := h
  have hT : ∀ c ∈ m.title.data, c ≠ '"' := fun c hc => (htc c hc).1
  have hD : ∀ c ∈ m.description.data, c ≠ '"' := fun c hc => (hdc c hc).1
  have hla : ∀ c ∈ (ratToString m.position.1).data, c ≠ '"' ∧ c ≠ ',' :=
    fun c hc => ⟨(ratToString_clean _ c hc).1, (ratToString_clean _ c hc).2.1⟩
  have hlo : ∀ c ∈ (ratToString m.position.2).data, c ≠ '"' ∧ c ≠ ',' :=
    fun c hc => ⟨(ratToString_clean _ c hc).1, (ratToString_clean _ c hc).2.1⟩
  have hcc : ∀ c ∈ m.category.data, c ≠ '"' ∧ c ≠ ',' :=
    fun c hc => ⟨((categories_clean _ hcat).2 c hc).1, ((categories_clean _ hcat).2 c hc).2.1⟩
  rw [rowChars_eq m hT hD]
  rw [goRow_quoted_field m.title.data _ htne hT]
  rw [goRow_quoted_field m.description.data _ hdne hD]
  rw [goRow_raw_field _ _ hla, goRow_raw_field _ _ hlo, goRow_raw_last _ hcc]
  simp only [List.map_cons, List.map_nil]
  rw [htt, hdt]
  rw [trimCL_eq_self _ (fun c hc => (ratToString_clean _ c hc).2.2.2.2)]
  rw [trimCL_eq_self _ (fun c hc => (ratToString_clean _ c hc).2.2.2.2)]
  rw [trimCL_eq_self _ (fun c hc => ((categories_clean _ hcat).2 c hc).2.2.2.2)]
  rfl

theorem parseCSV_export (ms : List Marker) (h : ∀ m ∈ ms, RoundTrippable m) :
    parseCSV (markersToCSVString ms).data =
      ([("Title").data, ("Description").data, ("Latitude").data, ("Longitude").data,
        ("Category").data], ms.map rowFields) := by
  have hdata : (markersToCSVString ms).data = joinNL (csvHeader :: ms.map rowChars) := rfl
  simp only [parseCSV]
  rw [hdata]
  rw [splitLines_joinNL (csvHeader :: ms.map rowChars) (by simp)
    (by
      intro l hl c hc
      rcases List.mem_cons.mp hl with rfl | hm
      · revert hc
        revert c
        decide
      · obtain ⟨m, hm2, rfl⟩ := List.mem_map.mp hm
        exact rowChars_no_break m (h m hm2) c hc)]
  rw [List.filter_eq_self.mpr
    (by
      intro l hl
      rcases List.mem_cons.mp hl with rfl | hm
      · decide
      · obtain ⟨m, hm2, rfl⟩ := List.mem_map.mp hm
        obtain ⟨⟨_, htc, _⟩, ⟨_, hdc, _⟩, _, _⟩ := h m hm2
        rw [rowChars_eq m (fun x hx => (htc x hx).1) (fun x hx => (hdc x hx).1)]
        rw [trimCL_cons_ne_nil '"' _ (by decide)]
        rfl)]
  simp only []
  have hHead : (splitCommas csvHeader []).map (fun f => stripQuotes (trimCL f)) =
      [("Title").data, ("Description").data, ("Latitude").data, ("Longitude").data,
       ("Category").data] := by decide
  have hRows : (ms.map rowChars).map (fun ln => (goRow ln false []).map trimCL) =
      ms.map rowFields := by
    rw [List.map_map]
    exact List.map_congr_left (fun m hm => goRow_rowChars m (h m hm))
  rw [hHead, hRows]

set_option maxRecDepth 100000 in
theorem validateRow_export (m : Marker) (h : RoundTrippable m) (i : Nat) :
    validateRow ⟨some 0, some 1, 2, 3, some 4⟩ i (rowFields m) =
      Except.ok (m.title, m.description, m.position.1, m.position.2, m.category) := by
  obtain ⟨⟨htne, _, _⟩, _, hcat, hb1, hb2, hb3, hb4, hd1, hd2⟩ := h
  have hcne : m.category.data ≠ [] := (categories_clean _ hcat).1
  have hjla := jsNumC_ratToString m.position.1 hd1
  have hjlo := jsNumC_ratToString m.position.2 hd2
  simp only [validateRow, rowFields, List.getD_cons_zero, List.getD_cons_succ]
  rw [if_neg hcne]
  rw [if_neg (by
    rintro (h1 | h1)
    · exact ratToString_ne_nil m.position.1 h1
    · exact ratToString_ne_nil m.position.2 h1)]
  rw [hjla, hjlo]
  simp only []
  rw [if_neg (by
    push_neg
    exact ⟨hb1, hb2, hb3, hb4⟩)]
  rw [if_neg htne, if_pos (show String.mk m.category.data ∈ CATEGORIES from hcat)]

theorem roundtrip_rows (now : Nat) : ∀ (ms : List Marker) (i : Nat),
    (∀ m ∈ ms, RoundTrippable m) →
    rowErrors (processRows [] ⟨some 0, some 1, 2, 3, some 4⟩ now i (ms.map rowFields)) = [] ∧
    (okMarkers (processRows [] ⟨some 0, some 1, 2, 3, some 4⟩ now i
      (ms.map rowFields))).map tupleOf = ms.map tupleOf := by
  intro ms
  induction ms with
  | nil => intro i _; exact ⟨rfl, rfl⟩
  | cons m rest ih =>
    intro i h
    rw [List.map_cons, processRows_cons]
    rw [processRow_ok_not_dup [] _ now i _ m.title m.description m.position.1 m.position.2
      m.category (validateRow_export m (h m (by simp)) i) (isDuplicate_nil _ _)]
    rw [okMarkers_cons_ok, rowErrors_cons_ok]
    obtain ⟨he, hm2⟩ := ih (i + 1) (fun x hx => h x (by simp [hx]))
    refine ⟨he, ?_⟩
    rw [List.map_cons, hm2, List.map_cons]
    rfl

set_option maxRecDepth 1000000 in
/-- C3 counterexample: a marker with an empty description (valid in-range
coordinates) exports its description as the quoted field `""`, which the
naive import scanner's quote-doubling rule reparses as the one-character
text `"` — so export followed by import into an empty store yields a
marker whose (title, description, lat, lng, category) tuple differs from
the original. -/
theorem export_import_roundtrip_cex :
    importCSV [] 7 (markersToCSVString
        [⟨7, ((10 : ℚ), (20 : ℚ)), "A", "", "General", none⟩]) =
      some ([⟨7, ((10 : ℚ), (20 : ℚ)), "A", "\"", "General", none⟩], [], 1) ∧
    tupleOf ⟨7, ((10 : ℚ), (20 : ℚ)), "A", "\"", "General", none⟩ ≠
      tupleOf ⟨7, ((10 : ℚ), (20 : ℚ)), "A", "", "General", none⟩ := by
  constructor
  · have hp : parseCSV (markersToCSVString
        [⟨7, ((10 : ℚ), (20 : ℚ)), "A", "", "General", none⟩]).data =
        ([("Title").data, ("Description").data, ("Latitude").data, ("Longitude").data,
          ("Category").data],
         [[("A").data, ("\"").data, ("10").data, ("20").data, ("General").data]]) := by
      decide
    have hla : [("Title").data, ("Description").data, ("Latitude").data, ("Longitude").data,
        ("Category").data].findIdx? (fun h =>
        lowerCL h == "latitude".data || lowerCL h == "lat".data) = some 2 := by decide
    have hlo : [("Title").data, ("Description").data, ("Latitude").data, ("Longitude").data,
        ("Category").data].findIdx? (fun h =>
        lowerCL h == "longitude".data || lowerCL h == "lon".data ||
        lowerCL h == "lng".data || lowerCL h == "long".data) = some 3 := by decide
    have ht : [("Title").data, ("Description").data, ("Latitude").data, ("Longitude").data,
        ("Category").data].findIdx? (fun h => lowerCL h == "title".data) = some 0 := by decide
    have hde : [("Title").data, ("Description").data, ("Latitude").data, ("Longitude").data,
        ("Category").data].findIdx? (fun h =>
        lowerCL h == "description".data || lowerCL h == "desc".data) = some 1 := by decide
    have hca : [("Title").data, ("Description").data, ("Latitude").data, ("Longitude").data,
        ("Category").data].findIdx? (fun h =>
        lowerCL h == "category".data || lowerCL h == "cat".data) = some 4 := by decide
    have h10 : jsNumC (("10").data) = some ((10 : ℚ)) := by
      rw [show ("10").data = natDigits 10 from by decide]
      simpa using jsNumC_natDigits 10
    have h20 : jsNumC (("20").data) = some ((20 : ℚ)) := by
      rw [show ("20").data = natDigits 20 from by decide]
      simpa using jsNumC_natDigits 20
    have hv : validateRow ⟨some 0, some 1, 2, 3, some 4⟩ 0
        [("A").data, ("\"").data, ("10").data, ("20").data, ("General").data] =
        Except.ok ("A", "\"", (10 : ℚ), 20, "General") := by
      simp only [validateRow, List.getD_cons_zero, List.getD_cons_succ]
      rw [if_neg (by decide : ¬ ("General").data = ([] : List Char))]
      rw [if_neg (by decide :
        ¬ (("10").data = ([] : List Char) ∨ ("20").data = ([] : List Char)))]
      rw [h10, h20]
      simp only []
      rw [if_neg (by norm_num :
        ¬ ((10 : ℚ) < -90 ∨ (10 : ℚ) > 90 ∨ (20 : ℚ) < -180 ∨ (20 : ℚ) > 180))]
      rw [if_neg (by decide : ¬ ("A").data = ([] : List Char)),
        if_pos (by decide : (String.mk ("General").data) ∈ CATEGORIES)]
    rw [importCSV_eq [] 7 _ _ _ hp 2 3 hla hlo, ht, hde, hca]
    rw [processRows_cons, processRows_nil]
    rw [processRow_ok_not_dup [] _ 7 0 _ "A" "\"" 10 20 "General" hv (isDuplicate_nil 10 20)]
    simp [okMarkers, rowErrors]
  · intro he
    have := congrArg (fun t => t.2.1) he
    simp [tupleOf] at this

set_option maxRecDepth 100000 in
/-- C3 amended: for markers whose text fields are nonempty,
trim-invariant and free of quotes and line breaks, whose category is one
of the fixed five, and whose coordinates are in range with terminating
decimal expansions, exporting to CSV and importing into an empty store
succeeds with no row errors and reproduces exactly the original
(title, description, lat, lng, category) tuples in order, only the ids
differing.  (As stated over ALL markers the claim is false: an empty
description comes back as the one-character text `"`.) -/
theorem export_import_roundtrip (ms : List Marker) (now : Nat)
    (h : ∀ m ∈ ms, RoundTrippable m) :
    ∃ ms2 : List Marker,
      importCSV [] now (markersToCSVString ms) = some (ms2, [], ms.length) ∧
      ms2.map tupleOf = ms.map tupleOf := by
  have hp := parseCSV_export ms h
  have hla : [("Title").data, ("Description").data, ("Latitude").data, ("Longitude").data,
      ("Category").data].findIdx? (fun h =>
      lowerCL h == "latitude".data || lowerCL h == "lat".data) = some 2 := by decide
  have hlo : [("Title").data, ("Description").data, ("Latitude").data, ("Longitude").data,
      ("Category").data].findIdx? (fun h =>
      lowerCL h == "longitude".data || lowerCL h == "lon".data ||
      lowerCL h == "lng".data || lowerCL h == "long".data) = some 3 := by decide
  have ht : [("Title").data, ("Description").data, ("Latitude").data, ("Longitude").data,
      ("Category").data].findIdx? (fun h => lowerCL h == "title".data) = some 0 := by decide
  have hde : [("Title").data, ("Description").data, ("Latitude").data, ("Longitude").data,
      ("Category").data].findIdx? (fun h =>
      lowerCL h == "description".data || lowerCL h == "desc".data) = some 1 := by decide
  have hca : [("Title").data, ("Description").data, ("Latitude").data, ("Longitude").data,
      ("Category").data].findIdx? (fun h =>
      lowerCL h == "category".data || lowerCL h == "cat".data) = some 4 := by decide
  rw [importCSV_eq [] now _ _ _ hp 2 3 hla hlo, ht, hde, hca]
  obtain ⟨he, hm⟩ := roundtrip_rows now ms 0 h
  refine ⟨okMarkers (processRows [] ⟨some 0, some 1, 2, 3, some 4⟩ now 0
    (ms.map rowFields)), ?_, hm⟩
  rw [he]
  have hlen : (okMarkers (processRows [] ⟨some 0, some 1, 2, 3, some 4⟩ now 0
      (ms.map rowFields))).length = ms.length := by
    have h2 := congrArg List.length hm
    simpa using h2
  rw [List.nil_append, hlen]

/-- Witness for C3's amended round trip: one concrete clean marker comes
back with its exact content tuple. -/
theorem export_import_roundtrip_witness :
    (∀ m ∈ [(⟨5, ((10 : ℚ), (20 : ℚ)), "A", "B", "General", none⟩ : Marker)],
      RoundTrippable m) ∧
    ∃ ms2 : List Marker,
      importCSV [] 100 (markersToCSVString
          [⟨5, ((10 : ℚ), (20 : ℚ)), "A", "B", "General", none⟩]) =
        some (ms2, [], 1) ∧
      ms2.map tupleOf = [("A", "B", (10 : ℚ), (20 : ℚ), "General")] := by
  have hrt : ∀ m ∈ [(⟨5, ((10 : ℚ), (20 : ℚ)), "A", "B", "General", none⟩ : Marker)],
      RoundTrippable m := by
    intro m hm
    rw [List.mem_singleton] at hm
    subst hm
    exact ⟨⟨by decide, by decide, by decide⟩, ⟨by decide, by decide, by decide⟩,
      by decide, by norm_num, by norm_num, by norm_num, by norm_num,
      decimalRep_of_den_one _ rfl, decimalRep_of_den_one _ rfl⟩
  obtain ⟨ms2, h1, h2⟩ := export_import_roundtrip
    [⟨5, ((10 : ℚ), (20 : ℚ)), "A", "B", "General", none⟩] 100 hrt
  exact ⟨hrt, ms2, h1, by rw [h2]; rfl⟩
